import Mathlib

/-!
Verification development for the Solana fund-mixer repository.

The planner (`buildFundingGraph`, `randomSplit`) from `src/app/mixer.ts` and the
executor loop (`runMixing`) from the page component are embedded shallowly:

* SOL amounts are modelled as exact rationals (`ℚ`); the JavaScript code uses
  IEEE doubles, so spec tolerances ("within 1e-9") become exact equalities here.
* `Math.random()` draws are modelled by explicit streams `ℕ → ℚ`, constrained
  to `[0, 1)` in theorem hypotheses exactly as the JS builtin guarantees.
* `makeId()` / `Keypair.generate()` are modelled by explicit supplies
  `mkId mkPk : ℕ → String`; theorems that depend on the generated ids being
  pairwise fresh (which `makeId` provides only probabilistically) take that
  freshness as an explicit hypothesis (`GoodIds`).
* The JS object used as a dictionary keyed by node id is modelled by a total
  function `String → List _` updated with `updAppend` (push onto the entry).
* `Array.prototype.sort` with comparator `a.sendTime - b.sendTime` is modelled
  by a sort with respect to `·.sendTime ≤ ·.sendTime`; no claim depends on the
  relative order of equal keys.
* `Math.floor` on seconds is `Int.floor : ℚ → ℤ`.
* A thrown planning error is `Except.error` carrying the interpolated values.
-/

namespace SolanaMixer

/-- Node of the funding graph (`WalletNode` in mixer.ts).  The
`Keypair | null` field is modelled by presence (`hasKeypair`). -/
structure WalletNode where
  hasKeypair : Bool
  pubkey : String
  label : String
  id : String
deriving DecidableEq, Repr

/-- One planned transfer (`FundingPlanStep` in mixer.ts). -/
structure FundingPlanStep where
  «from» : String
  «to» : String
  amount : ℚ
  sendTime : ℤ
deriving DecidableEq, Repr

/-- The planner output (`FundingGraph` in mixer.ts); the source keypair is
modelled by presence. -/
structure FundingGraph where
  nodes : List WalletNode
  edges : List FundingPlanStep
  fundingSourceHasKey : Bool
  fundingSourcePubkey : String
  recipients : List String
deriving DecidableEq, Repr

/-- Payload of the "not enough to cover fees and rent" Error thrown by
`buildFundingGraph` (the JS message interpolates exactly these values). -/
structure InsufficientFunds where
  deposit : ℚ
  fees : ℚ
  rent : ℚ
deriving DecidableEq, Repr

def LAMPORTS_PER_SOL : ℚ := 1000000000

def txFeeLamports : ℚ := 5000

def txFeeSOL : ℚ := txFeeLamports / LAMPORTS_PER_SOL

/-- `rentExemptionLamports / LAMPORTS_PER_SOL`; the lamport figure is the
network-queried `getMinimumBalanceForRentExemption(0)`, kept as a parameter. -/
def rentExemptionSOL (rentExemptionLamports : ℚ) : ℚ :=
  rentExemptionLamports / LAMPORTS_PER_SOL

def NUM_LAYER_1_HUBS : ℕ := 2

def NUM_LAYER_2_DISTRIBUTORS : ℕ := 4

/-- The i-th intermediate wallet generated by the loop in `buildFundingGraph`. -/
def interNode (mkPk mkId : ℕ → String) (i : ℕ) : WalletNode :=
  { hasKeypair := true
    pubkey := mkPk i
    label := if i < NUM_LAYER_1_HUBS then "Hub " ++ toString (i + 1)
             else "Distributor " ++ toString (i - NUM_LAYER_1_HUBS + 1)
    id := mkId i }

def intermediateWallets (mkPk mkId : ℕ → String) : List WalletNode :=
  (List.range (NUM_LAYER_1_HUBS + NUM_LAYER_2_DISTRIBUTORS)).map (interNode mkPk mkId)

def recipientNodes (recipients : List String) : List WalletNode :=
  recipients.enum.map fun p =>
    { hasKeypair := false
      pubkey := p.2
      label := "Bot Wallet " ++ toString (p.1 + 1)
      id := "RECIPIENT_" ++ toString p.1 }

def sourceNode (fundingSourceHasKey : Bool) (fundingSourcePubkey : String) : WalletNode :=
  { hasKeypair := fundingSourceHasKey
    pubkey := fundingSourcePubkey
    label := "Source"
    id := "SOURCE" }

def totalFees (numRecipients : ℕ) : ℚ :=
  ((NUM_LAYER_1_HUBS + NUM_LAYER_2_DISTRIBUTORS + numRecipients : ℕ) : ℚ) * txFeeSOL

def totalRent (rentExemptionLamports : ℚ) : ℚ :=
  ((NUM_LAYER_1_HUBS + NUM_LAYER_2_DISTRIBUTORS : ℕ) : ℚ) * rentExemptionSOL rentExemptionLamports

def totalCost (rentExemptionLamports : ℚ) (numRecipients : ℕ) : ℚ :=
  totalFees numRecipients + totalRent rentExemptionLamports

/-- `randomSplit` from mixer.ts.  `rand` is the stream of `Math.random()`
draws consumed by the `n` jittered shares. -/
def randomSplit (rand : ℕ → ℚ) (total : ℚ) (n : ℕ) : List ℚ :=
  if n = 0 ∨ total ≤ 0 then []
  else if n = 1 then [total]
  else
    let equalShare := total / (n : ℚ)
    let variationPercentage : ℚ := 30 / 100
    let initialShares := (List.range n).map fun i =>
      equalShare * (1 + (rand i - 1 / 2) * variationPercentage)
    let currentTotal := initialShares.sum
    let normalizationFactor := total / currentTotal
    initialShares.map fun share => share * normalizationFactor

/-- JS `obj[key].push(v)` on an object modelled as a total function. -/
def updAppend {α : Type} (m : String → List α) (key : String) (v : α) : String → List α :=
  fun s => if s = key then m s ++ [v] else m s

def dummyNode : WalletNode := { hasKeypair := false, pubkey := "", label := "", id := "" }

def hubs (mkPk mkId : ℕ → String) : List WalletNode :=
  (intermediateWallets mkPk mkId).take NUM_LAYER_1_HUBS

def distributors (mkPk mkId : ℕ → String) : List WalletNode :=
  (intermediateWallets mkPk mkId).drop NUM_LAYER_1_HUBS

/-- Recipient node paired with its split amount, in recipient order (the data
pushed into `distributorRecipientAssignments`). -/
def recipientPairs (recipients : List String) (recipientAmounts : List ℚ) :
    List (WalletNode × ℚ) :=
  (recipientNodes recipients).zip recipientAmounts

/-- `distributorRecipientAssignments` dictionary: recipient `i` is pushed onto
the entry of distributor `i % NUM_LAYER_2_DISTRIBUTORS`. -/
def distributorRecipientAssignments (mkPk mkId : ℕ → String)
    (pairs : List (WalletNode × ℚ)) : String → List (WalletNode × ℚ) :=
  pairs.enum.foldl
    (fun m p =>
      updAppend m (((distributors mkPk mkId).getD (p.1 % NUM_LAYER_2_DISTRIBUTORS) dummyNode).id) p.2)
    (fun _ => [])

/-- `hubDistributorAssignments` dictionary: distributor `i` is pushed onto the
entry of hub `i % NUM_LAYER_1_HUBS`. -/
def hubDistributorAssignments (mkPk mkId : ℕ → String) : String → List WalletNode :=
  (distributors mkPk mkId).enum.foldl
    (fun m p =>
      updAppend m (((hubs mkPk mkId).getD (p.1 % NUM_LAYER_1_HUBS) dummyNode).id) p.2)
    (fun _ => [])

/-- The amount accumulated for one hub in Stage 1 of `buildFundingGraph`. -/
def amountToFundHub (mkPk mkId : ℕ → String) (rentExemptionLamports : ℚ)
    (pairs : List (WalletNode × ℚ)) (hub : WalletNode) : ℚ :=
  ((hubDistributorAssignments mkPk mkId hub.id).length : ℚ) * txFeeSOL +
    ((hubDistributorAssignments mkPk mkId hub.id).map fun dist =>
      rentExemptionSOL rentExemptionLamports
        + ((distributorRecipientAssignments mkPk mkId pairs dist.id).length : ℚ) * txFeeSOL
        + ((distributorRecipientAssignments mkPk mkId pairs dist.id).map fun r => r.2).sum).sum

/-- Stage 1 (Source → Hubs) edges, in generation order.  `randT` is the stream
of `Math.random()` timing draws; each potential edge has its own slot. -/
def stage1Edges (mkPk mkId : ℕ → String) (randT : ℕ → ℚ) (rentExemptionLamports : ℚ)
    (totalSeconds : ℚ) (pairs : List (WalletNode × ℚ)) : List FundingPlanStep :=
  (hubs mkPk mkId).enum.filterMap fun p =>
    if 0 < amountToFundHub mkPk mkId rentExemptionLamports pairs p.2 then
      some { «from» := "SOURCE", «to» := p.2.id
             amount := amountToFundHub mkPk mkId rentExemptionLamports pairs p.2
             sendTime := ⌊randT p.1 * totalSeconds * (2 / 10)⌋ }
    else none

/-- The Stage-2 iteration order: each hub followed by its assigned distributors. -/
def stage2Pairs (mkPk mkId : ℕ → String) : List (WalletNode × WalletNode) :=
  ((hubs mkPk mkId).map fun hub =>
    (hubDistributorAssignments mkPk mkId hub.id).map fun d => (hub, d)).flatten

/-- The amount computed for one distributor in Stage 2 of `buildFundingGraph`. -/
def amountToFundDistributor (mkPk mkId : ℕ → String)
    (pairs : List (WalletNode × ℚ)) (dist : WalletNode) : ℚ :=
  ((distributorRecipientAssignments mkPk mkId pairs dist.id).map fun r => r.2).sum
    + ((distributorRecipientAssignments mkPk mkId pairs dist.id).length : ℚ) * txFeeSOL

/-- Stage 2 (Hubs → Distributors) edges, in generation order. -/
def stage2Edges (mkPk mkId : ℕ → String) (randT : ℕ → ℚ)
    (totalSeconds : ℚ) (pairs : List (WalletNode × ℚ)) : List FundingPlanStep :=
  (stage2Pairs mkPk mkId).enum.filterMap fun q =>
    if 0 < amountToFundDistributor mkPk mkId pairs q.2.2 then
      some { «from» := q.2.1.id, «to» := q.2.2.id
             amount := amountToFundDistributor mkPk mkId pairs q.2.2
             sendTime := ⌊totalSeconds * (2 / 10) + randT (NUM_LAYER_1_HUBS + q.1) * (totalSeconds * (3 / 10))⌋ }
    else none

/-- The Stage-3 iteration order: each distributor followed by its assigned
recipients. -/
def stage3Pairs (mkPk mkId : ℕ → String)
    (pairs : List (WalletNode × ℚ)) : List (WalletNode × (WalletNode × ℚ)) :=
  ((distributors mkPk mkId).map fun dist =>
    (distributorRecipientAssignments mkPk mkId pairs dist.id).map fun r => (dist, r)).flatten

/-- Stage 3 (Distributors → Recipients) edges, in generation order. -/
def stage3Edges (mkPk mkId : ℕ → String) (randT : ℕ → ℚ)
    (totalSeconds : ℚ) (pairs : List (WalletNode × ℚ)) : List FundingPlanStep :=
  (stage3Pairs mkPk mkId pairs).enum.map fun q =>
    { «from» := q.2.1.id, «to» := q.2.2.1.id, amount := q.2.2.2
      sendTime := ⌊totalSeconds * (5 / 10) + randT (NUM_LAYER_1_HUBS + NUM_LAYER_2_DISTRIBUTORS + q.1) * (totalSeconds * (5 / 10))⌋ }

/-- The recipient/amount pairs a successful planning run distributes:
`randomSplit` of `totalSol - totalCost` over the recipients. -/
def plannedPairs (randSplit : ℕ → ℚ) (rentExemptionLamports : ℚ)
    (recipients : List String) (totalSol : ℚ) : List (WalletNode × ℚ) :=
  recipientPairs recipients
    (randomSplit randSplit (totalSol - totalCost rentExemptionLamports recipients.length)
      recipients.length)

/-- All generated edges, in generation order (Stage 1, Stage 2, Stage 3). -/
def plannedEdges (mkPk mkId : ℕ → String) (randSplit randT : ℕ → ℚ)
    (rentExemptionLamports : ℚ) (recipients : List String)
    (totalSol totalSeconds : ℚ) : List FundingPlanStep :=
  stage1Edges mkPk mkId randT rentExemptionLamports totalSeconds
      (plannedPairs randSplit rentExemptionLamports recipients totalSol)
    ++ stage2Edges mkPk mkId randT totalSeconds
      (plannedPairs randSplit rentExemptionLamports recipients totalSol)
    ++ stage3Edges mkPk mkId randT totalSeconds
      (plannedPairs randSplit rentExemptionLamports recipients totalSol)

/-- `buildFundingGraph` from mixer.ts.  `mkPk`/`mkId` supply the generated
keypairs' public keys and `makeId()` results for the six intermediate wallets;
`randSplit`/`randT` are the `Math.random()` streams used for the amount split
and for edge scheduling. -/
def buildFundingGraph (mkPk mkId : ℕ → String) (randSplit randT : ℕ → ℚ)
    (rentExemptionLamports : ℚ) (fundingSourceHasKey : Bool) (fundingSourcePubkey : String)
    (recipients : List String) (totalSol totalSeconds : ℚ) :
    Except InsufficientFunds FundingGraph :=
  if totalSol ≤ totalCost rentExemptionLamports recipients.length then
    Except.error
      { deposit := totalSol
        fees := totalFees recipients.length
        rent := totalRent rentExemptionLamports }
  else
    Except.ok
      { nodes := sourceNode fundingSourceHasKey fundingSourcePubkey
          :: (intermediateWallets mkPk mkId ++ recipientNodes recipients)
        edges := (plannedEdges mkPk mkId randSplit randT rentExemptionLamports
            recipients totalSol totalSeconds).insertionSort
          (fun a b => a.sendTime ≤ b.sendTime)
        fundingSourceHasKey := fundingSourceHasKey
        fundingSourcePubkey := fundingSourcePubkey
        recipients := recipients }

/-- Sum of the amounts a given node id receives over the plan's edges. -/
def inflow (g : FundingGraph) (nodeId : String) : ℚ :=
  ((g.edges.filter fun e => e.«to» = nodeId).map fun e => e.amount).sum

/-- Sum of the amounts a given node id sends over the plan's edges. -/
def outflow (g : FundingGraph) (nodeId : String) : ℚ :=
  ((g.edges.filter fun e => e.«from» = nodeId).map fun e => e.amount).sum

/-- Number of outgoing edges of a given node id. -/
def outDegree (g : FundingGraph) (nodeId : String) : ℕ :=
  (g.edges.filter fun e => e.«from» = nodeId).length

/-- The node ids of the recipient nodes, in order. -/
def recipientIds (n : ℕ) : List String :=
  (List.range n).map fun i => "RECIPIENT_" ++ toString i

/-- Freshness of the six `makeId()` results: pairwise distinct and distinct
from the fixed ids `"SOURCE"` and `"RECIPIENT_<i>"` (for the `n` recipients in
play).  `makeId` guarantees this only with high probability; every theorem
that needs it takes it as a hypothesis. -/
def GoodIds (mkId : ℕ → String) (n : ℕ) : Prop :=
  ((List.range 6).map mkId).Nodup
    ∧ (∀ i < 6, mkId i ≠ "SOURCE")
    ∧ (∀ i < 6, ∀ j < n, mkId i ≠ "RECIPIENT_" ++ toString j)

/-- Distinctness of the recipient node ids `"RECIPIENT_<i>"`, `i < n` (true for
every `n` because decimal printing is injective; recorded as a decidable
hypothesis and discharged by computation where needed). -/
def RecipIdsInj (n : ℕ) : Prop :=
  ∀ j < n, ∀ k < n, ("RECIPIENT_" ++ toString j = "RECIPIENT_" ++ toString k) → j = k

/-- Outcome of one iteration of the executor loop in `runMixing`. -/
inductive StepOutcome where
  | skipped : StepOutcome
  | success : StepOutcome
  | halted : StepOutcome
deriving DecidableEq, Repr

/-- Whether the executor loop finds both a signing wallet for `step.from`
(`walletMap[step.from]`) and a destination node for `step.to`. -/
def canDispatch (g : FundingGraph) (step : FundingPlanStep) : Bool :=
  (g.nodes.any fun w => w.id == step.«from» && w.hasKeypair)
    && (g.nodes.any fun w => w.id == step.«to»)

/-- Trace of the executor loop of `runMixing` (page component): skip on a
missing wallet/node, stop the whole loop on the first failed transfer,
otherwise record a success and continue.  `sendOk i` tells whether the
`sendSol` call for the edge at index `i` succeeds. -/
def runMixingTrace (g : FundingGraph) (sendOk : ℕ → Bool) :
    List FundingPlanStep → ℕ → List (ℕ × StepOutcome)
  | [], _ => []
  | step :: rest, i =>
    if canDispatch g step then
      if sendOk i then (i, StepOutcome.success) :: runMixingTrace g sendOk rest (i + 1)
      else [(i, StepOutcome.halted)]
    else (i, StepOutcome.skipped) :: runMixingTrace g sendOk rest (i + 1)

/-- The executor run over a plan's edges. -/
def runMixing (g : FundingGraph) (sendOk : ℕ → Bool) : List (ℕ × StepOutcome) :=
  runMixingTrace g sendOk g.edges 0


/-! ### Arithmetic helpers -/

lemma sum_map_mul_const (l : List ℚ) (c : ℚ) :
    (l.map fun x => x * c).sum = l.sum * c := by
  induction l with
  | nil => simp
  | cons a t ih => simp only [List.map_cons, List.sum_cons, ih]; ring

lemma sum_map_bounds (l : List ℕ) (f : ℕ → ℚ) (lo hi : ℚ)
    (h : ∀ i ∈ l, lo ≤ f i ∧ f i ≤ hi) :
    (l.length : ℚ) * lo ≤ (l.map f).sum ∧ (l.map f).sum ≤ (l.length : ℚ) * hi := by
  induction l with
  | nil => simp
  | cons a t ih =>
    have ha := h a (List.mem_cons_self a t)
    have ht := ih fun i hi => h i (List.mem_cons_of_mem a hi)
    simp only [List.map_cons, List.sum_cons, List.length_cons]
    push_cast
    constructor <;> nlinarith [ha.1, ha.2, ht.1, ht.2]

/-! ### randomSplit: structure of the n ≥ 2 branch -/

/-- The jittered share list of `randomSplit` before normalization. -/
def initialShares (rand : ℕ → ℚ) (total : ℚ) (n : ℕ) : List ℚ :=
  (List.range n).map fun i => total / (n : ℚ) * (1 + (rand i - 1 / 2) * (30 / 100))

lemma randomSplit_eq_of_two_le (rand : ℕ → ℚ) (total : ℚ) (n : ℕ)
    (hn : 2 ≤ n) (ht : 0 < total) :
    randomSplit rand total n =
      (initialShares rand total n).map
        fun share => share * (total / (initialShares rand total n).sum) := by
  have hcond : ¬(n = 0 ∨ total ≤ 0) := by
    rintro (h | h)
    · omega
    · linarith
  have hone : ¬ n = 1 := by omega
  rw [randomSplit, if_neg hcond, if_neg hone]
  rfl

lemma npos_q {n : ℕ} (hn : 1 ≤ n) : (0 : ℚ) < (n : ℚ) := by
  exact_mod_cast Nat.pos_of_ne_zero (by omega)

lemma mem_initialShares (rand : ℕ → ℚ) (total : ℚ) (n : ℕ)
    (hr : ∀ i, 0 ≤ rand i ∧ rand i < 1) (hn : 1 ≤ n) (ht : 0 < total) :
    ∀ s ∈ initialShares rand total n,
      17 / 20 * (total / (n : ℚ)) ≤ s ∧ s ≤ 23 / 20 * (total / (n : ℚ)) := by
  intro s hs
  obtain ⟨i, _, rfl⟩ := List.mem_map.mp hs
  have heq : 0 < total / (n : ℚ) := div_pos ht (npos_q hn)
  obtain ⟨h0, h1⟩ := hr i
  constructor <;> nlinarith [heq, h0, h1]

lemma initialShares_sum_bounds (rand : ℕ → ℚ) (total : ℚ) (n : ℕ)
    (hr : ∀ i, 0 ≤ rand i ∧ rand i < 1) (hn : 1 ≤ n) (ht : 0 < total) :
    17 / 20 * total ≤ (initialShares rand total n).sum ∧
      (initialShares rand total n).sum ≤ 23 / 20 * total := by
  have hb := sum_map_bounds (List.range n)
    (fun i => total / (n : ℚ) * (1 + (rand i - 1 / 2) * (30 / 100)))
    (17 / 20 * (total / (n : ℚ))) (23 / 20 * (total / (n : ℚ)))
    (fun i _ => by
      have heq : 0 < total / (n : ℚ) := div_pos ht (npos_q hn)
      obtain ⟨h0, h1⟩ := hr i
      constructor <;> nlinarith [heq, h0, h1])
  rw [List.length_range] at hb
  have hne : (n : ℚ) ≠ 0 := ne_of_gt (npos_q hn)
  have e1 : (n : ℚ) * (17 / 20 * (total / (n : ℚ))) = 17 / 20 * total := by
    field_simp
    ring
  have e2 : (n : ℚ) * (23 / 20 * (total / (n : ℚ))) = 23 / 20 * total := by
    field_simp
    ring
  rw [e1, e2] at hb
  exact ⟨hb.1, hb.2⟩

lemma initialShares_sum_pos (rand : ℕ → ℚ) (total : ℚ) (n : ℕ)
    (hr : ∀ i, 0 ≤ rand i ∧ rand i < 1) (hn : 1 ≤ n) (ht : 0 < total) :
    0 < (initialShares rand total n).sum := by
  have := (initialShares_sum_bounds rand total n hr hn ht).1
  nlinarith

lemma normalizationFactor_bounds (rand : ℕ → ℚ) (total : ℚ) (n : ℕ)
    (hr : ∀ i, 0 ≤ rand i ∧ rand i < 1) (hn : 1 ≤ n) (ht : 0 < total) :
    20 / 23 ≤ total / (initialShares rand total n).sum ∧
      total / (initialShares rand total n).sum ≤ 20 / 17 := by
  obtain ⟨hlo, hhi⟩ := initialShares_sum_bounds rand total n hr hn ht
  have hS : 0 < (initialShares rand total n).sum :=
    initialShares_sum_pos rand total n hr hn ht
  constructor
  · rw [le_div_iff₀ hS]
    linarith
  · rw [div_le_iff₀ hS]
    linarith

lemma randomSplit_length (rand : ℕ → ℚ) (total : ℚ) (n : ℕ)
    (hn : 1 ≤ n) (ht : 0 < total) :
    (randomSplit rand total n).length = n := by
  rcases Nat.lt_or_ge n 2 with h2 | h2
  · have h1 : n = 1 := by omega
    subst h1
    have hcond : ¬(1 = 0 ∨ total ≤ 0) := by
      rintro (h | h)
      · omega
      · linarith
    rw [randomSplit, if_neg hcond, if_pos rfl]
    rfl
  · rw [randomSplit_eq_of_two_le rand total n h2 ht]
    simp [initialShares]

lemma randomSplit_sum (rand : ℕ → ℚ) (total : ℚ) (n : ℕ)
    (hr : ∀ i, 0 ≤ rand i ∧ rand i < 1) (hn : 1 ≤ n) (ht : 0 < total) :
    (randomSplit rand total n).sum = total := by
  rcases Nat.lt_or_ge n 2 with h2 | h2
  · have h1 : n = 1 := by omega
    subst h1
    have hcond : ¬(1 = 0 ∨ total ≤ 0) := by
      rintro (h | h)
      · omega
      · linarith
    rw [randomSplit, if_neg hcond, if_pos rfl]
    simp
  · rw [randomSplit_eq_of_two_le rand total n h2 ht, sum_map_mul_const]
    have hS : 0 < (initialShares rand total n).sum :=
      initialShares_sum_pos rand total n hr (by omega) ht
    field_simp

lemma randomSplit_mem_pos (rand : ℕ → ℚ) (total : ℚ) (n : ℕ)
    (hr : ∀ i, 0 ≤ rand i ∧ rand i < 1) (ht : 0 < total) :
    ∀ x ∈ randomSplit rand total n, 0 < x := by
  intro x hx
  rcases Nat.lt_or_ge n 2 with h2 | h2
  · rcases Nat.lt_or_ge n 1 with h1 | h1
    · have h0 : n = 0 := by omega
      subst h0
      rw [randomSplit, if_pos (Or.inl rfl)] at hx
      simp at hx
    · have h1 : n = 1 := by omega
      subst h1
      have hcond : ¬(1 = 0 ∨ total ≤ 0) := by
        rintro (h | h)
        · omega
        · linarith
      rw [randomSplit, if_neg hcond, if_pos rfl] at hx
      simp at hx
      simpa [hx] using ht
  · rw [randomSplit_eq_of_two_le rand total n h2 ht] at hx
    obtain ⟨s, hs, rfl⟩ := List.mem_map.mp hx
    have hsb := mem_initialShares rand total n hr (by omega) ht s hs
    have heq : 0 < total / (n : ℚ) := div_pos ht (npos_q (by omega))
    have hspos : 0 < s := by nlinarith [hsb.1]
    have hS : 0 < (initialShares rand total n).sum :=
      initialShares_sum_pos rand total n hr (by omega) ht
    exact mul_pos hspos (div_pos ht hS)

/-! ### Claim C3: randomSplit length / sum / non-negativity -/

/-- C3 counterexample: at `total = 0`, `n = 2` (inputs allowed by the claim,
which quantifies over `total >= 0`), `randomSplit` returns the empty list, not
a sequence of exactly `n = 2` amounts. -/
theorem claim_C3_counterexample :
    ¬ ((randomSplit (fun _ => (1 : ℚ) / 2) 0 2).length = 2) := by
  simp [randomSplit]

/-- C3 (amended: for `total > 0` rather than `total >= 0`; at `total = 0` the
code returns the empty list): for every `n ≥ 1`, `total > 0` and stream of
`Math.random()` draws, `randomSplit total n` returns exactly `n` amounts that
sum to exactly `total`, all non-negative. -/
theorem claim_C3 (rand : ℕ → ℚ) (total : ℚ) (n : ℕ)
    (hr : ∀ i, 0 ≤ rand i ∧ rand i < 1) (hn : 1 ≤ n) (ht : 0 < total) :
    (randomSplit rand total n).length = n ∧
      (randomSplit rand total n).sum = total ∧
      ∀ x ∈ randomSplit rand total n, 0 ≤ x :=
  ⟨randomSplit_length rand total n hn ht,
   randomSplit_sum rand total n hr hn ht,
   fun x hx => le_of_lt (randomSplit_mem_pos rand total n hr ht x hx)⟩

/-- Witness for C3 at `rand = const 1/2`, `total = 1`, `n = 3`. -/
theorem claim_C3_witness :
    (randomSplit (fun _ => (1 : ℚ) / 2) 1 3).length = 3 ∧
      (randomSplit (fun _ => (1 : ℚ) / 2) 1 3).sum = 1 ∧
      ∀ x ∈ randomSplit (fun _ => (1 : ℚ) / 2) 1 3, 0 ≤ x :=
  claim_C3 (fun _ => (1 : ℚ) / 2) 1 3 (fun _ => by norm_num) (by norm_num) (by norm_num)

/-! ### Claim C7: deviation bounds of the split -/

/-- C7 counterexample: with `total = 3`, `n = 3` and draws `(0, 0.99, 0.99)`,
the first returned amount is `425/524 ≈ 0.811`, below `0.85 · total/n = 0.85`:
the normalization step can push an amount outside the ±15 % window. -/
theorem claim_C7_counterexample :
    ¬ (∀ x ∈ randomSplit (fun i => if i = 0 then 0 else 99 / 100) 3 3,
        85 / 100 * ((3 : ℚ) / 3) ≤ x ∧ x ≤ 115 / 100 * ((3 : ℚ) / 3)) := by
  intro h
  have hL : randomSplit (fun i => if i = 0 then 0 else 99 / 100) 3 3
      = [425 / 524, 1147 / 1048, 1147 / 1048] := by
    norm_num [randomSplit, List.range_succ]
  have h0 := h (425 / 524) (by rw [hL]; simp)
  norm_num at h0

/-- C7 (amended: the pre-normalization shares deviate by at most ±15 % from
`total/n`, but the rescaling by `total / sampledSum` widens the guaranteed
window to `[17/23 · total/n, 23/17 · total/n]`, the tight outcome of a ±15 %
jitter followed by normalization): every returned amount lies in that window. -/
theorem claim_C7 (rand : ℕ → ℚ) (total : ℚ) (n : ℕ)
    (hr : ∀ i, 0 ≤ rand i ∧ rand i < 1) (hn : 2 ≤ n) (ht : 0 < total) :
    ∀ x ∈ randomSplit rand total n,
      17 / 23 * (total / (n : ℚ)) ≤ x ∧ x ≤ 23 / 17 * (total / (n : ℚ)) := by
  rw [randomSplit_eq_of_two_le rand total n hn ht]
  intro x hx
  obtain ⟨s, hs, rfl⟩ := List.mem_map.mp hx
  have hn1 : 1 ≤ n := by omega
  obtain ⟨hs1, hs2⟩ := mem_initialShares rand total n hr hn1 ht s hs
  obtain ⟨hq1, hq2⟩ := normalizationFactor_bounds rand total n hr hn1 ht
  have hS : 0 < (initialShares rand total n).sum :=
    initialShares_sum_pos rand total n hr hn1 ht
  have heq : 0 < total / (n : ℚ) := div_pos ht (npos_q hn1)
  have hspos : 0 < s := by nlinarith
  have hqpos : 0 < total / (initialShares rand total n).sum := div_pos ht hS
  constructor
  · nlinarith [mul_le_mul hs1 hq1 (by norm_num : (0 : ℚ) ≤ 20 / 23) (le_of_lt hspos)]
  · nlinarith [mul_le_mul hs2 hq2 (le_of_lt hqpos) (by nlinarith : (0 : ℚ) ≤ 23 / 20 * (total / (n : ℚ)))]

/-- Witness for C7 at `rand = const 1/2`, `total = 1`, `n = 2`, element `1/2`. -/
theorem claim_C7_witness :
    17 / 23 * ((1 : ℚ) / (2 : ℕ)) ≤ 1 / 2 ∧ (1 / 2 : ℚ) ≤ 23 / 17 * ((1 : ℚ) / (2 : ℕ)) :=
  claim_C7 (fun _ => (1 : ℚ) / 2) 1 2 (fun _ => by norm_num) (by norm_num) (by norm_num)
    (1 / 2)
    (by
      have hL : randomSplit (fun _ => (1 : ℚ) / 2) 1 2 = [1 / 2, 1 / 2] := by
        norm_num [randomSplit, List.range_succ]
      rw [hL]
      simp)

/-! ### Concrete inputs used by witnesses and counterexamples -/

/-- A concrete injective pubkey supply. -/
def mkPkW : ℕ → String := fun i => "PK" ++ toString i

/-- A concrete injective id supply for the six intermediate wallets. -/
def mkIdW : ℕ → String := fun i => "W" ++ toString i

def zeroRand : ℕ → ℚ := fun _ => 0

def halfRand : ℕ → ℚ := fun _ => 1 / 2

def sixRecipients : List String := ["R0", "R1", "R2", "R3", "R4", "R5"]

/-! ### Claim C1: insufficient-funds gate -/

/-- C1: `buildFundingGraph` fails with the insufficient-funds error (carrying
the deposit, fee and rent figures) exactly when `totalSol ≤ totalCost`, where
`totalCost` = (hub+distributor+recipient transfer count) × fee constant +
(intermediate wallet count) × rent-exemption; when `totalSol > totalCost` it
returns a graph and never that error. -/
theorem claim_C1 (mkPk mkId : ℕ → String) (randSplit randT : ℕ → ℚ)
    (rentExemptionLamports : ℚ) (srcKey : Bool) (srcPk : String)
    (recipients : List String) (totalSol totalSeconds : ℚ) :
    (totalSol ≤ totalCost rentExemptionLamports recipients.length →
      buildFundingGraph mkPk mkId randSplit randT rentExemptionLamports srcKey srcPk
          recipients totalSol totalSeconds
        = Except.error
            { deposit := totalSol
              fees := totalFees recipients.length
              rent := totalRent rentExemptionLamports })
    ∧ (totalCost rentExemptionLamports recipients.length < totalSol →
      ∃ g, buildFundingGraph mkPk mkId randSplit randT rentExemptionLamports srcKey srcPk
          recipients totalSol totalSeconds = Except.ok g) := by
  constructor
  · intro h
    rw [buildFundingGraph, if_pos h]
  · intro h
    rw [buildFundingGraph, if_neg (not_le.mpr h)]
    exact ⟨_, rfl⟩

/-- Witness for C1: with 3 recipients and rent 10⁶ lamports the total cost is
`0.006045` SOL; a deposit of `0.001` fails with the error, a deposit of `1`
succeeds. -/
theorem claim_C1_witness :
    (buildFundingGraph mkPkW mkIdW halfRand halfRand 1000000 true "SRC"
        ["A", "B", "C"] (1 / 1000) 60
      = Except.error
          { deposit := 1 / 1000
            fees := totalFees 3
            rent := totalRent 1000000 })
    ∧ ∃ g, buildFundingGraph mkPkW mkIdW halfRand halfRand 1000000 true "SRC"
        ["A", "B", "C"] 1 60 = Except.ok g :=
  ⟨(claim_C1 mkPkW mkIdW halfRand halfRand 1000000 true "SRC" ["A", "B", "C"] (1 / 1000) 60).1
      (by norm_num [totalCost, totalFees, totalRent, txFeeSOL, txFeeLamports,
        rentExemptionSOL, LAMPORTS_PER_SOL, NUM_LAYER_1_HUBS, NUM_LAYER_2_DISTRIBUTORS]),
   (claim_C1 mkPkW mkIdW halfRand halfRand 1000000 true "SRC" ["A", "B", "C"] 1 60).2
      (by norm_num [totalCost, totalFees, totalRent, txFeeSOL, txFeeLamports,
        rentExemptionSOL, LAMPORTS_PER_SOL, NUM_LAYER_1_HUBS, NUM_LAYER_2_DISTRIBUTORS])⟩

/-! ### Claim C6: executor halts on first dispatch failure -/

lemma runMixingTrace_start_le (g : FundingGraph) (sendOk : ℕ → Bool) :
    ∀ (es : List FundingPlanStep) (i : ℕ),
      ∀ p ∈ runMixingTrace g sendOk es i, i ≤ p.1 := by
  intro es
  induction es with
  | nil => intro i p hp; simp [runMixingTrace] at hp
  | cons step rest ih =>
    intro i p hp
    by_cases hc : canDispatch g step
    · by_cases hs : sendOk i
      · rw [runMixingTrace, if_pos hc, if_pos hs] at hp
        rcases List.mem_cons.mp hp with h | h
        · subst h; exact le_refl _
        · exact le_trans (Nat.le_succ i) (ih (i + 1) p h)
      · rw [runMixingTrace, if_pos hc, if_neg hs] at hp
        rcases List.mem_cons.mp hp with h | h
        · subst h; exact le_refl _
        · simp at h
    · rw [runMixingTrace, if_neg hc] at hp
      rcases List.mem_cons.mp hp with h | h
      · subst h; exact le_refl _
      · exact le_trans (Nat.le_succ i) (ih (i + 1) p h)

lemma runMixingTrace_halted_bound (g : FundingGraph) (sendOk : ℕ → Bool) :
    ∀ (es : List FundingPlanStep) (i k : ℕ),
      (k, StepOutcome.halted) ∈ runMixingTrace g sendOk es i →
      (∀ p ∈ runMixingTrace g sendOk es i, p.1 ≤ k) ∧
        (∀ j, (j, StepOutcome.success) ∈ runMixingTrace g sendOk es i → j < k) := by
  intro es
  induction es with
  | nil => intro i k hk; simp [runMixingTrace] at hk
  | cons step rest ih =>
    intro i k hk
    by_cases hc : canDispatch g step
    · by_cases hs : sendOk i
      · rw [runMixingTrace, if_pos hc, if_pos hs] at hk
        rcases List.mem_cons.mp hk with h | hmem
        · exact absurd (congrArg Prod.snd h) (by simp)
        · have hik : i + 1 ≤ k := runMixingTrace_start_le g sendOk rest (i + 1) _ hmem
          obtain ⟨b1, b2⟩ := ih (i + 1) k hmem
          rw [runMixingTrace, if_pos hc, if_pos hs]
          constructor
          · intro p hp
            rcases List.mem_cons.mp hp with h | h
            · subst h; omega
            · exact b1 p h
          · intro j hj
            rcases List.mem_cons.mp hj with h | h
            · have : j = i := congrArg Prod.fst h
              omega
            · exact b2 j h
      · rw [runMixingTrace, if_pos hc, if_neg hs] at hk
        rcases List.mem_cons.mp hk with h | h
        · have hki : k = i := congrArg Prod.fst h
          subst hki
          rw [runMixingTrace, if_pos hc, if_neg hs]
          constructor
          · intro p hp
            rcases List.mem_cons.mp hp with h' | h'
            · subst h'; exact le_refl _
            · simp at h'
          · intro j hj
            rcases List.mem_cons.mp hj with h' | h'
            · exact absurd (congrArg Prod.snd h') (by simp)
            · simp at h'
        · simp at h
    · rw [runMixingTrace, if_neg hc] at hk
      rcases List.mem_cons.mp hk with h | hmem
      · exact absurd (congrArg Prod.snd h) (by simp)
      · have hik : i + 1 ≤ k := runMixingTrace_start_le g sendOk rest (i + 1) _ hmem
        obtain ⟨b1, b2⟩ := ih (i + 1) k hmem
        rw [runMixingTrace, if_neg hc]
        constructor
        · intro p hp
          rcases List.mem_cons.mp hp with h | h
          · subst h; omega
          · exact b1 p h
        · intro j hj
          rcases List.mem_cons.mp hj with h | h
          · exact absurd (congrArg Prod.snd h) (by simp)
          · exact b2 j h

/-- C6: if the executor's dispatch of the edge at index `k` fails (the run
records `(k, halted)`), then no edge with index greater than `k` is ever
processed, and every successfully dispatched edge has index strictly below
`k`. -/
theorem claim_C6 (g : FundingGraph) (sendOk : ℕ → Bool) (k : ℕ)
    (hk : (k, StepOutcome.halted) ∈ runMixing g sendOk) :
    (∀ p ∈ runMixing g sendOk, p.1 ≤ k) ∧
      (∀ j, (j, StepOutcome.success) ∈ runMixing g sendOk → j < k) :=
  runMixingTrace_halted_bound g sendOk g.edges 0 k hk

/-- A 5-edge plan between two dispatchable nodes. -/
def gW : FundingGraph :=
  { nodes := [{ hasKeypair := true, pubkey := "pkA", label := "A", id := "A" },
              { hasKeypair := false, pubkey := "pkB", label := "B", id := "B" }]
    edges := [{ «from» := "A", «to» := "B", amount := 1, sendTime := 0 },
              { «from» := "A", «to» := "B", amount := 1, sendTime := 1 },
              { «from» := "A", «to» := "B", amount := 1, sendTime := 2 },
              { «from» := "A", «to» := "B", amount := 1, sendTime := 3 },
              { «from» := "A", «to» := "B", amount := 1, sendTime := 4 }]
    fundingSourceHasKey := true
    fundingSourcePubkey := "pkA"
    recipients := ["pkB"] }

/-- Failure injected at the 2nd edge (index 1). -/
def okW : ℕ → Bool := fun i => i == 0

/-- Witness for C6: on a 5-edge plan with a failure injected at the 2nd edge,
the run is exactly one success followed by the halt — edges 3–5 never
dispatch. -/
theorem claim_C6_witness :
    runMixing gW okW = [(0, StepOutcome.success), (1, StepOutcome.halted)] ∧
      ((∀ p ∈ runMixing gW okW, p.1 ≤ 1) ∧
        (∀ j, (j, StepOutcome.success) ∈ runMixing gW okW → j < 1)) :=
  ⟨by decide, claim_C6 gW okW 1 (by decide)⟩

/-! ### The id-keyed dictionaries -/

lemma foldl_updAppend_apply {α β : Type} (key : α → String) (val : α → β) :
    ∀ (l : List α) (m : String → List β) (k : String),
      (l.foldl (fun m p => updAppend m (key p) (val p)) m) k
        = m k ++ (l.filter fun p => key p = k).map val := by
  intro l
  induction l with
  | nil => simp
  | cons a t ih =>
    intro m k
    rw [List.foldl_cons, ih]
    by_cases h : key a = k
    · subst h
      rw [List.filter_cons_of_pos (by simp)]
      simp [updAppend]
    · have h' : ¬ k = key a := fun hh => h hh.symm
      rw [List.filter_cons_of_neg (by simpa using h)]
      simp [updAppend, h']

lemma distributors_getD (mkPk mkId : ℕ → String) (i : ℕ) (h : i < 4) :
    (distributors mkPk mkId).getD i dummyNode = interNode mkPk mkId (2 + i) := by
  interval_cases i <;> rfl

lemma hubs_getD (mkPk mkId : ℕ → String) (i : ℕ) (h : i < 2) :
    (hubs mkPk mkId).getD i dummyNode = interNode mkPk mkId i := by
  interval_cases i <;> rfl

lemma mkId_lt6_inj {mkId : ℕ → String} (hnd : ((List.range 6).map mkId).Nodup)
    {a b : ℕ} (ha : a < 6) (hb : b < 6) (h : mkId a = mkId b) : a = b :=
  List.inj_on_of_nodup_map hnd (List.mem_range.mpr ha) (List.mem_range.mpr hb) h

/-- Content of the `distributorRecipientAssignments` dictionary at distributor
`j` (`j < 4`): the recipients whose index is `j` modulo 4, in order. -/
lemma dra_apply (mkPk mkId : ℕ → String) (pairs : List (WalletNode × ℚ)) (j : ℕ)
    (hj : j < 4) (hnd : ((List.range 6).map mkId).Nodup) :
    distributorRecipientAssignments mkPk mkId pairs (mkId (2 + j))
      = (pairs.enum.filter fun p => p.1 % 4 = j).map Prod.snd := by
  unfold distributorRecipientAssignments
  have hfun : (fun (m : String → List (WalletNode × ℚ)) (p : ℕ × (WalletNode × ℚ)) =>
      updAppend m (((distributors mkPk mkId).getD (p.1 % NUM_LAYER_2_DISTRIBUTORS) dummyNode).id) p.2)
      = fun m p => updAppend m (mkId (2 + p.1 % 4)) p.2 := by
    funext m p
    rw [show NUM_LAYER_2_DISTRIBUTORS = 4 from rfl,
      distributors_getD mkPk mkId _ (Nat.mod_lt _ (by norm_num))]
    rfl
  rw [hfun, foldl_updAppend_apply (fun p => mkId (2 + p.1 % 4)) Prod.snd]
  rw [List.nil_append]
  congr 1
  apply List.filter_congr
  intro p _
  apply decide_eq_decide.mpr
  constructor
  · intro h
    have := mkId_lt6_inj hnd (by omega : 2 + p.1 % 4 < 6) (by omega : 2 + j < 6) h
    omega
  · intro h
    rw [h]

/-- Content of the `hubDistributorAssignments` dictionary at hub `j`
(`j < 2`): distributors `2 + j` and `4 + j`. -/
lemma hda_apply (mkPk mkId : ℕ → String) (j : ℕ) (hj : j < 2)
    (hnd : ((List.range 6).map mkId).Nodup) :
    hubDistributorAssignments mkPk mkId (mkId j)
      = [interNode mkPk mkId (2 + j), interNode mkPk mkId (4 + j)] := by
  unfold hubDistributorAssignments
  have hfun : (fun (m : String → List WalletNode) (p : ℕ × WalletNode) =>
      updAppend m (((hubs mkPk mkId).getD (p.1 % NUM_LAYER_1_HUBS) dummyNode).id) p.2)
      = fun m p => updAppend m (mkId (p.1 % 2)) p.2 := by
    funext m p
    rw [show NUM_LAYER_1_HUBS = 2 from rfl,
      hubs_getD mkPk mkId _ (Nat.mod_lt _ (by norm_num))]
    rfl
  have hD : (distributors mkPk mkId).enum
      = [(0, interNode mkPk mkId 2), (1, interNode mkPk mkId 3),
         (2, interNode mkPk mkId 4), (3, interNode mkPk mkId 5)] := rfl
  rw [hfun, foldl_updAppend_apply (fun p => mkId (p.1 % 2)) Prod.snd, hD, List.nil_append]
  have h01 : mkId 0 ≠ mkId 1 := fun h => by
    have := mkId_lt6_inj hnd (by omega) (by omega) h
    omega
  interval_cases j
  · have h10 : ¬ (mkId 1 = mkId 0) := fun h => h01 h.symm
    simp [h10]
  · simp [h01]

/-! ### Extraction of a successful planning run -/

lemma build_ok_elim {mkPk mkId : ℕ → String} {randSplit randT : ℕ → ℚ}
    {rentExemptionLamports : ℚ} {srcKey : Bool} {srcPk : String}
    {recipients : List String} {totalSol totalSeconds : ℚ} {g : FundingGraph}
    (h : buildFundingGraph mkPk mkId randSplit randT rentExemptionLamports srcKey srcPk
      recipients totalSol totalSeconds = Except.ok g) :
    totalCost rentExemptionLamports recipients.length < totalSol ∧
      g = { nodes := sourceNode srcKey srcPk
              :: (intermediateWallets mkPk mkId ++ recipientNodes recipients)
            edges := (plannedEdges mkPk mkId randSplit randT rentExemptionLamports
                recipients totalSol totalSeconds).insertionSort
              (fun a b => a.sendTime ≤ b.sendTime)
            fundingSourceHasKey := srcKey
            fundingSourcePubkey := srcPk
            recipients := recipients } := by
  rw [buildFundingGraph] at h
  by_cases hc : totalSol ≤ totalCost rentExemptionLamports recipients.length
  · rw [if_pos hc] at h
    cases h
  · rw [if_neg hc] at h
    exact ⟨not_le.mp hc, (Except.ok.inj h).symm⟩

/-- The edges of a successful plan are a permutation of the generated stage
edges. -/
lemma build_ok_edges_perm {mkPk mkId : ℕ → String} {randSplit randT : ℕ → ℚ}
    {rentExemptionLamports : ℚ} {srcKey : Bool} {srcPk : String}
    {recipients : List String} {totalSol totalSeconds : ℚ} {g : FundingGraph}
    (h : buildFundingGraph mkPk mkId randSplit randT rentExemptionLamports srcKey srcPk
      recipients totalSol totalSeconds = Except.ok g) :
    g.edges.Perm (plannedEdges mkPk mkId randSplit randT rentExemptionLamports
      recipients totalSol totalSeconds) := by
  rw [(build_ok_elim h).2]
  exact List.perm_insertionSort _ _

/-! ### Claim C5: edges globally sorted by scheduled offset -/

/-- C5: in every successfully returned plan the edge sequence is ascending in
`sendTime` (the scheduled offset), whatever generation stage each edge came
from. -/
theorem claim_C5 (mkPk mkId : ℕ → String) (randSplit randT : ℕ → ℚ)
    (rentExemptionLamports : ℚ) (srcKey : Bool) (srcPk : String)
    (recipients : List String) (totalSol totalSeconds : ℚ) (g : FundingGraph)
    (h : buildFundingGraph mkPk mkId randSplit randT rentExemptionLamports srcKey srcPk
      recipients totalSol totalSeconds = Except.ok g) :
    g.edges.Pairwise fun a b => a.sendTime ≤ b.sendTime := by
  rw [(build_ok_elim h).2]
  haveI : IsTotal FundingPlanStep fun a b => a.sendTime ≤ b.sendTime :=
    ⟨fun a b => le_total a.sendTime b.sendTime⟩
  haveI : IsTrans FundingPlanStep fun a b => a.sendTime ≤ b.sendTime :=
    ⟨fun _ _ _ hab hbc => le_trans hab hbc⟩
  exact List.sorted_insertionSort _ _

/-- Extract the graph from a planning result (default for the error case). -/
def planOrDefault (e : Except InsufficientFunds FundingGraph) : FundingGraph :=
  match e with
  | Except.ok g => g
  | Except.error _ =>
      { nodes := [], edges := [], fundingSourceHasKey := false
        fundingSourcePubkey := "", recipients := [] }

/-- A concrete successful plan: rent 890880 lamports, six recipients, 1 SOL,
300 seconds. -/
def gOkW : FundingGraph :=
  planOrDefault (buildFundingGraph mkPkW mkIdW halfRand halfRand 890880 true "SRC"
    sixRecipients 1 300)

lemma buildW_ok : buildFundingGraph mkPkW mkIdW halfRand halfRand 890880 true "SRC"
    sixRecipients 1 300 = Except.ok gOkW := by
  have hc : ¬ ((1 : ℚ) ≤ totalCost 890880 sixRecipients.length) := by
    norm_num [totalCost, totalFees, totalRent, txFeeSOL, txFeeLamports,
      rentExemptionSOL, LAMPORTS_PER_SOL, NUM_LAYER_1_HUBS, NUM_LAYER_2_DISTRIBUTORS,
      sixRecipients]
  simp only [gOkW, planOrDefault, buildFundingGraph, if_neg hc]

/-- Witness for C5 on the concrete successful plan. -/
theorem claim_C5_witness :
    gOkW.edges.Pairwise fun a b => a.sendTime ≤ b.sendTime :=
  claim_C5 mkPkW mkIdW halfRand halfRand 890880 true "SRC" sixRecipients 1 300 gOkW buildW_ok

/-! ### Buckets: round-robin recipient assignment content -/

/-- Recipients (with amounts) assigned to distributor `j` (`j < 4`): those
whose index is `j` mod 4, in order. -/
def bucket (pairs : List (WalletNode × ℚ)) (j : ℕ) : List (WalletNode × ℚ) :=
  (pairs.enum.filter fun p => p.1 % 4 = j).map Prod.snd

lemma dra_eq_key (mkPk mkId : ℕ → String) (pairs : List (WalletNode × ℚ)) (k : String) :
    distributorRecipientAssignments mkPk mkId pairs k
      = (pairs.enum.filter fun p => mkId (2 + p.1 % 4) = k).map Prod.snd := by
  unfold distributorRecipientAssignments
  have hfun : (fun (m : String → List (WalletNode × ℚ)) (p : ℕ × (WalletNode × ℚ)) =>
      updAppend m (((distributors mkPk mkId).getD (p.1 % NUM_LAYER_2_DISTRIBUTORS) dummyNode).id) p.2)
      = fun m p => updAppend m (mkId (2 + p.1 % 4)) p.2 := by
    funext m p
    rw [show NUM_LAYER_2_DISTRIBUTORS = 4 from rfl,
      distributors_getD mkPk mkId _ (Nat.mod_lt _ (by norm_num))]
    rfl
  rw [hfun, foldl_updAppend_apply (fun p => mkId (2 + p.1 % 4)) Prod.snd, List.nil_append]

lemma hda_eq_key (mkPk mkId : ℕ → String) (k : String) :
    hubDistributorAssignments mkPk mkId k
      = ((distributors mkPk mkId).enum.filter fun p => mkId (p.1 % 2) = k).map Prod.snd := by
  unfold hubDistributorAssignments
  have hfun : (fun (m : String → List WalletNode) (p : ℕ × WalletNode) =>
      updAppend m (((hubs mkPk mkId).getD (p.1 % NUM_LAYER_1_HUBS) dummyNode).id) p.2)
      = fun m p => updAppend m (mkId (p.1 % 2)) p.2 := by
    funext m p
    rw [show NUM_LAYER_1_HUBS = 2 from rfl,
      hubs_getD mkPk mkId _ (Nat.mod_lt _ (by norm_num))]
    rfl
  rw [hfun, foldl_updAppend_apply (fun p => mkId (p.1 % 2)) Prod.snd, List.nil_append]

lemma dra_subset (mkPk mkId : ℕ → String) (pairs : List (WalletNode × ℚ)) (k : String) :
    ∀ r ∈ distributorRecipientAssignments mkPk mkId pairs k, r ∈ pairs := by
  rw [dra_eq_key]
  intro r hr
  obtain ⟨p, hp, rfl⟩ := List.mem_map.mp hr
  have h1 : p ∈ pairs.enum := (List.mem_filter.mp hp).1
  have h2 : p.2 ∈ pairs.enum.map Prod.snd := List.mem_map_of_mem Prod.snd h1
  rwa [List.enum_map_snd] at h2

lemma hda_subset (mkPk mkId : ℕ → String) (k : String) :
    ∀ d ∈ hubDistributorAssignments mkPk mkId k, d ∈ distributors mkPk mkId := by
  rw [hda_eq_key]
  intro d hd
  obtain ⟨p, hp, rfl⟩ := List.mem_map.mp hd
  have h1 : p ∈ (distributors mkPk mkId).enum := (List.mem_filter.mp hp).1
  have h2 : p.2 ∈ (distributors mkPk mkId).enum.map Prod.snd := List.mem_map_of_mem Prod.snd h1
  rwa [List.enum_map_snd] at h2

lemma dra_bucket (mkPk mkId : ℕ → String) (pairs : List (WalletNode × ℚ))
    (hnd : ((List.range 6).map mkId).Nodup) (k : ℕ) (h2 : 2 ≤ k) (h6 : k < 6) :
    distributorRecipientAssignments mkPk mkId pairs (mkId k) = bucket pairs (k - 2) := by
  have h := dra_apply mkPk mkId pairs (k - 2) (by omega) hnd
  rw [show 2 + (k - 2) = k from by omega] at h
  exact h

lemma stage2Pairs_eq (mkPk mkId : ℕ → String) (hnd : ((List.range 6).map mkId).Nodup) :
    stage2Pairs mkPk mkId
      = [(interNode mkPk mkId 0, interNode mkPk mkId 2),
         (interNode mkPk mkId 0, interNode mkPk mkId 4),
         (interNode mkPk mkId 1, interNode mkPk mkId 3),
         (interNode mkPk mkId 1, interNode mkPk mkId 5)] := by
  unfold stage2Pairs
  have hH : hubs mkPk mkId = [interNode mkPk mkId 0, interNode mkPk mkId 1] := rfl
  rw [hH]
  simp only [List.map_cons, List.map_nil, List.flatten_cons, List.flatten_nil]
  rw [show (interNode mkPk mkId 0).id = mkId 0 from rfl,
    hda_apply mkPk mkId 0 (by norm_num) hnd,
    show (interNode mkPk mkId 1).id = mkId 1 from rfl,
    hda_apply mkPk mkId 1 (by norm_num) hnd]
  norm_num

lemma stage3Pairs_eq (mkPk mkId : ℕ → String) (pairs : List (WalletNode × ℚ))
    (hnd : ((List.range 6).map mkId).Nodup) :
    stage3Pairs mkPk mkId pairs
      = (bucket pairs 0).map (fun r => (interNode mkPk mkId 2, r))
        ++ ((bucket pairs 1).map (fun r => (interNode mkPk mkId 3, r))
        ++ ((bucket pairs 2).map (fun r => (interNode mkPk mkId 4, r))
        ++ (bucket pairs 3).map (fun r => (interNode mkPk mkId 5, r)))) := by
  unfold stage3Pairs
  have hD : distributors mkPk mkId
      = [interNode mkPk mkId 2, interNode mkPk mkId 3,
         interNode mkPk mkId 4, interNode mkPk mkId 5] := rfl
  rw [hD]
  simp only [List.map_cons, List.map_nil, List.flatten_cons, List.flatten_nil]
  rw [show (interNode mkPk mkId 2).id = mkId 2 from rfl,
    dra_bucket mkPk mkId pairs hnd 2 (by norm_num) (by norm_num),
    show (interNode mkPk mkId 3).id = mkId 3 from rfl,
    dra_bucket mkPk mkId pairs hnd 3 (by norm_num) (by norm_num),
    show (interNode mkPk mkId 4).id = mkId 4 from rfl,
    dra_bucket mkPk mkId pairs hnd 4 (by norm_num) (by norm_num),
    show (interNode mkPk mkId 5).id = mkId 5 from rfl,
    dra_bucket mkPk mkId pairs hnd 5 (by norm_num) (by norm_num)]
  norm_num

lemma exists_six {α : Type} (l : List α) (h : l.length = 6) :
    ∃ a b c d e f, l = [a, b, c, d, e, f] := by
  rcases l with _ | ⟨a, _ | ⟨b, _ | ⟨c, _ | ⟨d, _ | ⟨e, _ | ⟨f, rest⟩⟩⟩⟩⟩⟩ <;>
    simp only [List.length_nil, List.length_cons] at h
  · omega
  · omega
  · omega
  · omega
  · omega
  · omega
  · have hrest : rest = [] := List.length_eq_zero.mp (by omega)
    exact ⟨a, b, c, d, e, f, by rw [hrest]⟩

lemma bucket_six (a b c d e f : WalletNode × ℚ) :
    bucket [a, b, c, d, e, f] 0 = [a, e] ∧ bucket [a, b, c, d, e, f] 1 = [b, f] ∧
      bucket [a, b, c, d, e, f] 2 = [c] ∧ bucket [a, b, c, d, e, f] 3 = [d] := by
  refine ⟨?_, ?_, ?_, ?_⟩ <;> simp [bucket, List.enum, List.enumFrom, List.filter]

/-! ### Stage membership elimination -/

lemma mem_stage1_elim {mkPk mkId : ℕ → String} {randT : ℕ → ℚ} {rentExemptionLamports : ℚ}
    {totalSeconds : ℚ} {pairs : List (WalletNode × ℚ)} {e : FundingPlanStep}
    (he : e ∈ stage1Edges mkPk mkId randT rentExemptionLamports totalSeconds pairs) :
    ∃ q : ℕ × WalletNode, q ∈ (hubs mkPk mkId).enum ∧
      0 < amountToFundHub mkPk mkId rentExemptionLamports pairs q.2 ∧
      e = { «from» := "SOURCE", «to» := q.2.id
            amount := amountToFundHub mkPk mkId rentExemptionLamports pairs q.2
            sendTime := ⌊randT q.1 * totalSeconds * (2 / 10)⌋ } := by
  obtain ⟨q, hq, hfq⟩ := List.mem_filterMap.mp he
  by_cases hpos : 0 < amountToFundHub mkPk mkId rentExemptionLamports pairs q.2
  · rw [if_pos hpos] at hfq
    exact ⟨q, hq, hpos, (Option.some.inj hfq).symm⟩
  · rw [if_neg hpos] at hfq
    cases hfq

lemma mem_stage2_elim {mkPk mkId : ℕ → String} {randT : ℕ → ℚ}
    {totalSeconds : ℚ} {pairs : List (WalletNode × ℚ)} {e : FundingPlanStep}
    (he : e ∈ stage2Edges mkPk mkId randT totalSeconds pairs) :
    ∃ q : ℕ × (WalletNode × WalletNode), q ∈ (stage2Pairs mkPk mkId).enum ∧
      0 < amountToFundDistributor mkPk mkId pairs q.2.2 ∧
      e = { «from» := q.2.1.id, «to» := q.2.2.id
            amount := amountToFundDistributor mkPk mkId pairs q.2.2
            sendTime := ⌊totalSeconds * (2 / 10)
              + randT (NUM_LAYER_1_HUBS + q.1) * (totalSeconds * (3 / 10))⌋ } := by
  obtain ⟨q, hq, hfq⟩ := List.mem_filterMap.mp he
  by_cases hpos : 0 < amountToFundDistributor mkPk mkId pairs q.2.2
  · rw [if_pos hpos] at hfq
    exact ⟨q, hq, hpos, (Option.some.inj hfq).symm⟩
  · rw [if_neg hpos] at hfq
    cases hfq

lemma mem_stage3_elim {mkPk mkId : ℕ → String} {randT : ℕ → ℚ}
    {totalSeconds : ℚ} {pairs : List (WalletNode × ℚ)} {e : FundingPlanStep}
    (he : e ∈ stage3Edges mkPk mkId randT totalSeconds pairs) :
    ∃ q : ℕ × (WalletNode × (WalletNode × ℚ)), q ∈ (stage3Pairs mkPk mkId pairs).enum ∧
      e = { «from» := q.2.1.id, «to» := q.2.2.1.id, amount := q.2.2.2
            sendTime := ⌊totalSeconds * (5 / 10)
              + randT (NUM_LAYER_1_HUBS + NUM_LAYER_2_DISTRIBUTORS + q.1) * (totalSeconds * (5 / 10))⌋ } := by
  obtain ⟨q, hq, hfq⟩ := List.mem_map.mp he
  exact ⟨q, hq, hfq.symm⟩

/-! ### Planned pairs facts -/

lemma plannedPairs_length (randSplit : ℕ → ℚ) (rentExemptionLamports : ℚ)
    (recipients : List String) (totalSol : ℚ)
    (hcost : totalCost rentExemptionLamports recipients.length < totalSol) :
    (plannedPairs randSplit rentExemptionLamports recipients totalSol).length
      = recipients.length := by
  unfold plannedPairs recipientPairs
  rw [List.length_zip]
  have h1 : (recipientNodes recipients).length = recipients.length := by
    simp [recipientNodes]
  rcases Nat.eq_zero_or_pos recipients.length with h0 | hpos
  · rw [h1, h0]
    simp
  · rw [h1, randomSplit_length _ _ _ hpos (sub_pos.mpr hcost), Nat.min_self]

lemma plannedPairs_amount_pos (randSplit : ℕ → ℚ) (rentExemptionLamports : ℚ)
    (recipients : List String) (totalSol : ℚ)
    (hr : ∀ i, 0 ≤ randSplit i ∧ randSplit i < 1)
    (hcost : totalCost rentExemptionLamports recipients.length < totalSol) :
    ∀ r ∈ plannedPairs randSplit rentExemptionLamports recipients totalSol, 0 < r.2 := by
  rintro ⟨w, q⟩ hmem
  unfold plannedPairs recipientPairs at hmem
  have h2 := (List.of_mem_zip hmem).2
  exact randomSplit_mem_pos _ _ _ hr (sub_pos.mpr hcost) q h2

/-! ### Claim C8: stage scheduling windows -/

/-- C8 (amended: the lower ends of the later windows are `⌊0.2·T⌋` and
`⌊0.5·T⌋` because `Math.floor` is applied to the drawn offset, and `T > 0` is
required): in every successful plan each edge comes from one of the three
stages, stage-1 offsets lie in `[0, 0.2·T)`, stage-2 offsets in
`[⌊0.2·T⌋, 0.5·T)` and stage-3 offsets in `[⌊0.5·T⌋, T)`. -/
theorem claim_C8 (mkPk mkId : ℕ → String) (randSplit randT : ℕ → ℚ)
    (rentExemptionLamports : ℚ) (srcKey : Bool) (srcPk : String)
    (recipients : List String) (totalSol totalSeconds : ℚ)
    (hr : ∀ i, 0 ≤ randT i ∧ randT i < 1) (hT : 0 < totalSeconds)
    (g : FundingGraph)
    (h : buildFundingGraph mkPk mkId randSplit randT rentExemptionLamports srcKey srcPk
      recipients totalSol totalSeconds = Except.ok g) :
    ∀ e ∈ g.edges,
      (e ∈ stage1Edges mkPk mkId randT rentExemptionLamports totalSeconds
          (plannedPairs randSplit rentExemptionLamports recipients totalSol) ∨
        e ∈ stage2Edges mkPk mkId randT totalSeconds
          (plannedPairs randSplit rentExemptionLamports recipients totalSol) ∨
        e ∈ stage3Edges mkPk mkId randT totalSeconds
          (plannedPairs randSplit rentExemptionLamports recipients totalSol)) ∧
      (e ∈ stage1Edges mkPk mkId randT rentExemptionLamports totalSeconds
          (plannedPairs randSplit rentExemptionLamports recipients totalSol) →
        (0 : ℤ) ≤ e.sendTime ∧ (e.sendTime : ℚ) < 2 / 10 * totalSeconds) ∧
      (e ∈ stage2Edges mkPk mkId randT totalSeconds
          (plannedPairs randSplit rentExemptionLamports recipients totalSol) →
        ⌊2 / 10 * totalSeconds⌋ ≤ e.sendTime ∧ (e.sendTime : ℚ) < 5 / 10 * totalSeconds) ∧
      (e ∈ stage3Edges mkPk mkId randT totalSeconds
          (plannedPairs randSplit rentExemptionLamports recipients totalSol) →
        ⌊5 / 10 * totalSeconds⌋ ≤ e.sendTime ∧ (e.sendTime : ℚ) < totalSeconds) := by
  intro e he
  refine ⟨?_, ?_, ?_, ?_⟩
  · have hp := (build_ok_edges_perm h).mem_iff.mp he
    rw [plannedEdges] at hp
    rcases List.mem_append.mp hp with h12 | h3
    · rcases List.mem_append.mp h12 with h1 | h2
      · exact Or.inl h1
      · exact Or.inr (Or.inl h2)
    · exact Or.inr (Or.inr h3)
  · intro hm
    obtain ⟨q, _, _, rfl⟩ := mem_stage1_elim hm
    constructor
    · exact Int.floor_nonneg.mpr
        (mul_nonneg (mul_nonneg (hr q.1).1 (le_of_lt hT)) (by norm_num))
    · have hlt : randT q.1 * totalSeconds * (2 / 10) < 2 / 10 * totalSeconds := by
        have hp := mul_pos (sub_pos.mpr (hr q.1).2) hT
        linarith
      exact lt_of_le_of_lt (Int.floor_le _) hlt
  · intro hm
    obtain ⟨q, _, _, rfl⟩ := mem_stage2_elim hm
    constructor
    · apply Int.floor_le_floor
      have := mul_nonneg (hr (NUM_LAYER_1_HUBS + q.1)).1
        (mul_nonneg (le_of_lt hT) (by norm_num : (0 : ℚ) ≤ 3 / 10))
      linarith
    · have hlt : totalSeconds * (2 / 10)
          + randT (NUM_LAYER_1_HUBS + q.1) * (totalSeconds * (3 / 10))
          < 5 / 10 * totalSeconds := by
        have hp := mul_pos (sub_pos.mpr (hr (NUM_LAYER_1_HUBS + q.1)).2)
          (mul_pos hT (by norm_num : (0 : ℚ) < 3 / 10))
        linarith
      exact lt_of_le_of_lt (Int.floor_le _) hlt
  · intro hm
    obtain ⟨q, _, rfl⟩ := mem_stage3_elim hm
    constructor
    · apply Int.floor_le_floor
      have := mul_nonneg (hr (NUM_LAYER_1_HUBS + NUM_LAYER_2_DISTRIBUTORS + q.1)).1
        (mul_nonneg (le_of_lt hT) (by norm_num : (0 : ℚ) ≤ 5 / 10))
      linarith
    · have hlt : totalSeconds * (5 / 10)
          + randT (NUM_LAYER_1_HUBS + NUM_LAYER_2_DISTRIBUTORS + q.1) * (totalSeconds * (5 / 10))
          < totalSeconds := by
        have hp := mul_pos (sub_pos.mpr (hr (NUM_LAYER_1_HUBS + NUM_LAYER_2_DISTRIBUTORS + q.1)).2)
          (mul_pos hT (by norm_num : (0 : ℚ) < 5 / 10))
        linarith
      exact lt_of_le_of_lt (Int.floor_le _) hlt

/-- Concrete plan with duration 301 s (not a multiple of 5), zero draws. -/
def gC8 : FundingGraph :=
  planOrDefault (buildFundingGraph mkPkW mkIdW zeroRand zeroRand 890880 true "SRC"
    sixRecipients 1 301)

lemma costW_lt : totalCost 890880 sixRecipients.length < 1 := by
  norm_num [totalCost, totalFees, totalRent, txFeeSOL, txFeeLamports,
    rentExemptionSOL, LAMPORTS_PER_SOL, NUM_LAYER_1_HUBS, NUM_LAYER_2_DISTRIBUTORS,
    sixRecipients]

lemma buildC8_ok : buildFundingGraph mkPkW mkIdW zeroRand zeroRand 890880 true "SRC"
    sixRecipients 1 301 = Except.ok gC8 := by
  have hc : ¬ ((1 : ℚ) ≤ totalCost 890880 sixRecipients.length) := not_le.mpr costW_lt
  simp only [gC8, planOrDefault, buildFundingGraph, if_neg hc]

lemma mkIdW_nodup : ((List.range 6).map mkIdW).Nodup := by decide

/-- The hub-1 to distributor-1 (stage-2) edge of the `T = 301`, zero-draw plan. -/
def eC8 : FundingPlanStep :=
  { «from» := (interNode mkPkW mkIdW 0).id, «to» := (interNode mkPkW mkIdW 2).id
    amount := amountToFundDistributor mkPkW mkIdW
      (plannedPairs zeroRand 890880 sixRecipients 1) (interNode mkPkW mkIdW 2)
    sendTime := ⌊(301 : ℚ) * (2 / 10)
      + zeroRand (NUM_LAYER_1_HUBS + 0) * ((301 : ℚ) * (3 / 10))⌋ }

lemma amountC8_pos : 0 < amountToFundDistributor mkPkW mkIdW
    (plannedPairs zeroRand 890880 sixRecipients 1) (interNode mkPkW mkIdW 2) := by
  have hnd := mkIdW_nodup
  have hcost : totalCost 890880 sixRecipients.length < 1 := costW_lt
  have hPlen : (plannedPairs zeroRand 890880 sixRecipients 1).length = 6 :=
    plannedPairs_length zeroRand 890880 sixRecipients 1 hcost
  obtain ⟨a, b, c, d, e2, f, hP⟩ := exists_six _ hPlen
  have hpos_mem := plannedPairs_amount_pos zeroRand 890880 sixRecipients 1
    (fun _ => by norm_num [zeroRand]) hcost
  unfold amountToFundDistributor
  rw [show (interNode mkPkW mkIdW 2).id = mkIdW 2 from rfl,
    dra_bucket mkPkW mkIdW _ hnd 2 (by norm_num) (by norm_num)]
  norm_num
  rw [hP, (bucket_six a b c d e2 f).1]
  have ha := hpos_mem a (by rw [hP]; simp)
  have he := hpos_mem e2 (by rw [hP]; simp)
  simp only [List.map_cons, List.map_nil, List.sum_cons, List.sum_nil,
    List.length_cons, List.length_nil]
  have hfee : (0 : ℚ) < txFeeSOL := by
    norm_num [txFeeSOL, txFeeLamports, LAMPORTS_PER_SOL]
  push_cast
  nlinarith

lemma eC8_mem_stage2 : eC8 ∈ stage2Edges mkPkW mkIdW zeroRand 301
    (plannedPairs zeroRand 890880 sixRecipients 1) := by
  apply List.mem_filterMap.mpr
  refine ⟨(0, (interNode mkPkW mkIdW 0, interNode mkPkW mkIdW 2)), ?_, ?_⟩
  · rw [stage2Pairs_eq mkPkW mkIdW mkIdW_nodup]
    simp [List.enum, List.enumFrom]
  · rw [if_pos amountC8_pos]
    rfl

lemma eC8_mem_edges : eC8 ∈ gC8.edges := by
  apply (build_ok_edges_perm buildC8_ok).mem_iff.mpr
  rw [plannedEdges]
  apply List.mem_append.mpr
  left
  apply List.mem_append.mpr
  right
  exact eC8_mem_stage2

/-- C8 counterexample: with duration `T = 301` and a zero draw, the generated
hub-to-distributor (stage-2) edge for the first distributor is scheduled at
`⌊0.2 · 301⌋ = 60`, which is strictly below the claimed window start
`0.2 · T = 60.2`. -/
theorem claim_C8_counterexample :
    ∃ g, buildFundingGraph mkPkW mkIdW zeroRand zeroRand 890880 true "SRC"
        sixRecipients 1 301 = Except.ok g ∧
      ∃ e ∈ g.edges,
        e ∈ stage2Edges mkPkW mkIdW zeroRand 301
          (plannedPairs zeroRand 890880 sixRecipients 1) ∧
        ¬ (2 / 10 * (301 : ℚ) ≤ (e.sendTime : ℚ)) := by
  refine ⟨gC8, buildC8_ok, eC8, eC8_mem_edges, eC8_mem_stage2, ?_⟩
  have hfl : (⌊(301 : ℚ) * (2 / 10) + zeroRand (NUM_LAYER_1_HUBS + 0) * ((301 : ℚ) * (3 / 10))⌋ : ℤ)
      = 60 := by
    rw [show zeroRand (NUM_LAYER_1_HUBS + 0) = 0 from rfl]
    rw [Int.floor_eq_iff]
    norm_num
  show ¬ (2 / 10 * (301 : ℚ) ≤ (eC8.sendTime : ℚ))
  rw [show eC8.sendTime = ⌊(301 : ℚ) * (2 / 10)
    + zeroRand (NUM_LAYER_1_HUBS + 0) * ((301 : ℚ) * (3 / 10))⌋ from rfl, hfl]
  norm_num

/-- Witness for C8 at the concrete stage-2 edge `eC8` of the successful
`T = 301`, zero-draw plan. -/
theorem claim_C8_witness :
    (eC8 ∈ stage1Edges mkPkW mkIdW zeroRand 890880 301
        (plannedPairs zeroRand 890880 sixRecipients 1) ∨
      eC8 ∈ stage2Edges mkPkW mkIdW zeroRand 301
        (plannedPairs zeroRand 890880 sixRecipients 1) ∨
      eC8 ∈ stage3Edges mkPkW mkIdW zeroRand 301
        (plannedPairs zeroRand 890880 sixRecipients 1)) ∧
    (eC8 ∈ stage1Edges mkPkW mkIdW zeroRand 890880 301
        (plannedPairs zeroRand 890880 sixRecipients 1) →
      (0 : ℤ) ≤ eC8.sendTime ∧ (eC8.sendTime : ℚ) < 2 / 10 * 301) ∧
    (eC8 ∈ stage2Edges mkPkW mkIdW zeroRand 301
        (plannedPairs zeroRand 890880 sixRecipients 1) →
      ⌊2 / 10 * (301 : ℚ)⌋ ≤ eC8.sendTime ∧ (eC8.sendTime : ℚ) < 5 / 10 * 301) ∧
    (eC8 ∈ stage3Edges mkPkW mkIdW zeroRand 301
        (plannedPairs zeroRand 890880 sixRecipients 1) →
      ⌊5 / 10 * (301 : ℚ)⌋ ≤ eC8.sendTime ∧ (eC8.sendTime : ℚ) < 301) :=
  claim_C8 mkPkW mkIdW zeroRand zeroRand 890880 true "SRC" sixRecipients 1 301
    (fun _ => by norm_num [zeroRand]) (by norm_num) gC8 buildC8_ok eC8 eC8_mem_edges

/-! ### Claim C10: node inventory and edge endpoints -/

lemma enum_map_fst_fn {α β : Type} (H : ℕ → β) (l : List α) :
    l.enum.map (fun p => H p.1) = (List.range l.length).map H := by
  rw [show (fun p : ℕ × α => H p.1) = H ∘ Prod.fst from rfl, ← List.map_map,
    List.enum_map_fst]

lemma mem_enum_snd {α : Type} {q : ℕ × α} {l : List α} (h : q ∈ l.enum) : q.2 ∈ l := by
  have h2 := List.mem_map_of_mem Prod.snd h
  rwa [List.enum_map_snd] at h2

lemma mem_stage2Pairs_elim {mkPk mkId : ℕ → String} {q : WalletNode × WalletNode}
    (h : q ∈ stage2Pairs mkPk mkId) :
    q.1 ∈ hubs mkPk mkId ∧ q.2 ∈ distributors mkPk mkId := by
  unfold stage2Pairs at h
  obtain ⟨l, hl, hq⟩ := List.mem_flatten.mp h
  obtain ⟨hub, hhub, rfl⟩ := List.mem_map.mp hl
  obtain ⟨d, hd, rfl⟩ := List.mem_map.mp hq
  exact ⟨hhub, hda_subset mkPk mkId hub.id d hd⟩

lemma mem_stage3Pairs_elim {mkPk mkId : ℕ → String} {pairs : List (WalletNode × ℚ)}
    {q : WalletNode × (WalletNode × ℚ)} (h : q ∈ stage3Pairs mkPk mkId pairs) :
    q.1 ∈ distributors mkPk mkId ∧ q.2 ∈ pairs := by
  unfold stage3Pairs at h
  obtain ⟨l, hl, hq⟩ := List.mem_flatten.mp h
  obtain ⟨dist, hdist, rfl⟩ := List.mem_map.mp hl
  obtain ⟨r, hrr, rfl⟩ := List.mem_map.mp hq
  exact ⟨hdist, dra_subset mkPk mkId pairs dist.id r hrr⟩

lemma plannedPairs_fst_mem {randSplit : ℕ → ℚ} {rentExemptionLamports : ℚ}
    {recipients : List String} {totalSol : ℚ} {r : WalletNode × ℚ}
    (h : r ∈ plannedPairs randSplit rentExemptionLamports recipients totalSol) :
    r.1 ∈ recipientNodes recipients := by
  rcases r with ⟨w, amt⟩
  exact (List.of_mem_zip h).1

/-- C10: every successful plan has, after the source node, exactly the six
intermediate wallets — two hubs then four distributors, each with a generated
(non-null) keypair — followed by one keyless node per recipient; and every
edge's `from`/`to` is the id of a node of the returned graph. -/
theorem claim_C10 (mkPk mkId : ℕ → String) (randSplit randT : ℕ → ℚ)
    (rentExemptionLamports : ℚ) (srcKey : Bool) (srcPk : String)
    (recipients : List String) (totalSol totalSeconds : ℚ) (g : FundingGraph)
    (h : buildFundingGraph mkPk mkId randSplit randT rentExemptionLamports srcKey srcPk
      recipients totalSol totalSeconds = Except.ok g) :
    (g.nodes.map fun w => (w.hasKeypair, w.label))
        = (srcKey, "Source")
            :: ([(true, "Hub 1"), (true, "Hub 2"), (true, "Distributor 1"),
                (true, "Distributor 2"), (true, "Distributor 3"), (true, "Distributor 4")]
              ++ (List.range recipients.length).map fun i =>
                (false, "Bot Wallet " ++ toString (i + 1)))
      ∧ ∀ e ∈ g.edges,
          e.«from» ∈ g.nodes.map (fun w => w.id) ∧ e.«to» ∈ g.nodes.map (fun w => w.id) := by
  rw [(build_ok_elim h).2]
  dsimp only
  constructor
  · rw [List.map_cons, List.map_append]
    have hint : (intermediateWallets mkPk mkId).map (fun w => (w.hasKeypair, w.label))
        = [(true, "Hub 1"), (true, "Hub 2"), (true, "Distributor 1"),
           (true, "Distributor 2"), (true, "Distributor 3"), (true, "Distributor 4")] := rfl
    have hrec : (recipientNodes recipients).map (fun w => (w.hasKeypair, w.label))
        = (List.range recipients.length).map fun i =>
            (false, "Bot Wallet " ++ toString (i + 1)) := by
      unfold recipientNodes
      rw [List.map_map]
      exact enum_map_fst_fn (fun i => (false, "Bot Wallet " ++ toString (i + 1))) recipients
    rw [hint, hrec]
    rfl
  · intro e he
    have he' : e ∈ plannedEdges mkPk mkId randSplit randT rentExemptionLamports
        recipients totalSol totalSeconds :=
      (List.perm_insertionSort (fun a b => a.sendTime ≤ b.sendTime) _).mem_iff.mp he
    rw [plannedEdges] at he'
    have hidOf : ∀ w : WalletNode,
        w ∈ intermediateWallets mkPk mkId ++ recipientNodes recipients →
        w.id ∈ (sourceNode srcKey srcPk
            :: (intermediateWallets mkPk mkId ++ recipientNodes recipients)).map
          (fun w => w.id) :=
      fun w hw => List.mem_map_of_mem _ (List.mem_cons_of_mem _ hw)
    have hsrc : "SOURCE" ∈ (sourceNode srcKey srcPk
        :: (intermediateWallets mkPk mkId ++ recipientNodes recipients)).map
          (fun w => w.id) := by
      apply List.mem_map.mpr
      exact ⟨sourceNode srcKey srcPk, List.mem_cons_self _ _, rfl⟩
    rcases List.mem_append.mp he' with h12 | h3
    · rcases List.mem_append.mp h12 with h1 | h2
      · obtain ⟨q, hq, _, rfl⟩ := mem_stage1_elim h1
        refine ⟨hsrc, ?_⟩
        apply hidOf
        exact List.mem_append_left _ (List.take_subset _ _ (mem_enum_snd hq))
      · obtain ⟨q, hq, _, rfl⟩ := mem_stage2_elim h2
        obtain ⟨hh, hd⟩ := mem_stage2Pairs_elim (mem_enum_snd hq)
        constructor
        · exact hidOf _ (List.mem_append_left _ (List.take_subset _ _ hh))
        · exact hidOf _ (List.mem_append_left _ (List.drop_subset _ _ hd))
    · obtain ⟨q, hq, rfl⟩ := mem_stage3_elim h3
      obtain ⟨hd, hp⟩ := mem_stage3Pairs_elim (mem_enum_snd hq)
      constructor
      · exact hidOf _ (List.mem_append_left _ (List.drop_subset _ _ hd))
      · exact hidOf _ (List.mem_append_right _ (plannedPairs_fst_mem hp))

/-- Witness for C10 on the concrete successful plan. -/
theorem claim_C10_witness :
    (gOkW.nodes.map fun w => (w.hasKeypair, w.label))
        = (true, "Source")
            :: ([(true, "Hub 1"), (true, "Hub 2"), (true, "Distributor 1"),
                (true, "Distributor 2"), (true, "Distributor 3"), (true, "Distributor 4")]
              ++ (List.range sixRecipients.length).map fun i =>
                (false, "Bot Wallet " ++ toString (i + 1)))
      ∧ ∀ e ∈ gOkW.edges,
          e.«from» ∈ gOkW.nodes.map (fun w => w.id) ∧ e.«to» ∈ gOkW.nodes.map (fun w => w.id) :=
  claim_C10 mkPkW mkIdW halfRand halfRand 890880 true "SRC" sixRecipients 1 300 gOkW buildW_ok

/-! ### Generic enum / partition helpers -/

lemma txFeeSOL_pos : (0 : ℚ) < txFeeSOL := by
  norm_num [txFeeSOL, txFeeLamports, LAMPORTS_PER_SOL]

lemma mem_enum_fst_lt {α : Type} {q : ℕ × α} {l : List α} (h : q ∈ l.enum) : q.1 < l.length := by
  have h2 := List.mem_map_of_mem Prod.fst h
  rw [List.enum_map_fst] at h2
  exact List.mem_range.mp h2

lemma enum_map_snd_fn {α β : Type} (H : α → β) (l : List α) :
    l.enum.map (fun q => H q.2) = l.map H := by
  rw [show (fun q : ℕ × α => H q.2) = H ∘ Prod.snd from rfl, ← List.map_map,
    List.enum_map_snd]

lemma enum_filter_map_snd_fn {α β : Type} (P : α → Bool) (H : α → β) (l : List α) :
    ((l.enum.filter fun q => P q.2).map fun q => H q.2) = (l.filter P).map H := by
  rw [show (fun q : ℕ × α => H q.2) = H ∘ Prod.snd from rfl,
    show (fun q : ℕ × α => P q.2) = P ∘ Prod.snd from rfl,
    ← List.map_map, ← List.filter_map, List.enum_map_snd]

lemma enum_filter_length_snd {α : Type} (P : α → Bool) (l : List α) :
    (l.enum.filter fun q => P q.2).length = (l.filter P).length := by
  rw [show (fun q : ℕ × α => P q.2) = P ∘ Prod.snd from rfl,
    ← List.length_map (l.enum.filter (P ∘ Prod.snd)) Prod.snd,
    ← List.filter_map, List.enum_map_snd]

lemma enum_countP_snd {α : Type} (P : α → Bool) (l : List α) :
    List.countP (fun q => P q.2) l.enum = List.countP P l := by
  rw [List.countP_eq_length_filter, List.countP_eq_length_filter, enum_filter_length_snd]

lemma enum_filter_length_fst {α : Type} (P : ℕ → Bool) (l : List α) :
    (l.enum.filter fun q => P q.1).length = ((List.range l.length).filter P).length := by
  rw [show (fun q : ℕ × α => P q.1) = P ∘ Prod.fst from rfl,
    ← List.length_map (l.enum.filter (P ∘ Prod.fst)) Prod.fst,
    ← List.filter_map, List.enum_map_fst]

lemma enum_countP_fst {α : Type} (P : ℕ → Bool) (l : List α) :
    List.countP (fun q => P q.1) l.enum = List.countP P (List.range l.length) := by
  rw [List.countP_eq_length_filter, List.countP_eq_length_filter, enum_filter_length_fst]

lemma filter_mod4_perm {α : Type} (L : List (ℕ × α)) :
    ((L.filter fun p => p.1 % 4 = 0) ++ ((L.filter fun p => p.1 % 4 = 1)
      ++ ((L.filter fun p => p.1 % 4 = 2) ++ (L.filter fun p => p.1 % 4 = 3)))).Perm L := by
  induction L with
  | nil => simp
  | cons hd tl ih =>
    have h4 : hd.1 % 4 = 0 ∨ hd.1 % 4 = 1 ∨ hd.1 % 4 = 2 ∨ hd.1 % 4 = 3 := by omega
    rcases h4 with h | h | h | h
    · simp only [List.filter_cons, h]
      norm_num
      exact ih
    · simp only [List.filter_cons, h]
      norm_num
      exact List.perm_middle.trans (ih.cons hd)
    · simp only [List.filter_cons, h]
      norm_num
      rw [← List.append_assoc]
      refine List.perm_middle.trans (List.Perm.cons hd ?_)
      rw [List.append_assoc]
      exact ih
    · simp only [List.filter_cons, h]
      norm_num
      rw [← List.append_assoc, ← List.append_assoc]
      refine List.perm_middle.trans (List.Perm.cons hd ?_)
      rw [List.append_assoc, List.append_assoc]
      exact ih

/-- The recipients-with-amounts listed in Stage-3 order are a permutation of
the planned pairs. -/
lemma stage3Pairs_snd_perm (mkPk mkId : ℕ → String) (pairs : List (WalletNode × ℚ))
    (hnd : ((List.range 6).map mkId).Nodup) :
    ((stage3Pairs mkPk mkId pairs).map Prod.snd).Perm pairs := by
  rw [stage3Pairs_eq mkPk mkId pairs hnd]
  simp only [List.map_append, List.map_map]
  have hcomp : ∀ w : WalletNode,
      (Prod.snd ∘ fun r : WalletNode × ℚ => (w, r)) = id := fun w => rfl
  rw [hcomp, hcomp, hcomp, hcomp, List.map_id, List.map_id, List.map_id, List.map_id]
  unfold bucket
  rw [← List.map_append, ← List.map_append, ← List.map_append]
  have hp := (filter_mod4_perm pairs.enum).map Prod.snd
  rwa [List.enum_map_snd] at hp

lemma mem_hubs_elim {mkPk mkId : ℕ → String} {w : WalletNode}
    (h : w ∈ hubs mkPk mkId) : ∃ k, k < 2 ∧ w = interNode mkPk mkId k := by
  have hH : hubs mkPk mkId = [interNode mkPk mkId 0, interNode mkPk mkId 1] := rfl
  rw [hH] at h
  rcases List.mem_cons.mp h with h | h
  · exact ⟨0, by norm_num, h⟩
  rcases List.mem_cons.mp h with h | h
  · exact ⟨1, by norm_num, h⟩
  · simp at h

lemma mem_distributors_elim {mkPk mkId : ℕ → String} {w : WalletNode}
    (h : w ∈ distributors mkPk mkId) : ∃ k, 2 ≤ k ∧ k < 6 ∧ w = interNode mkPk mkId k := by
  have hD : distributors mkPk mkId
      = [interNode mkPk mkId 2, interNode mkPk mkId 3,
         interNode mkPk mkId 4, interNode mkPk mkId 5] := rfl
  rw [hD] at h
  rcases List.mem_cons.mp h with h | h
  · exact ⟨2, by norm_num, by norm_num, h⟩
  rcases List.mem_cons.mp h with h | h
  · exact ⟨3, by norm_num, by norm_num, h⟩
  rcases List.mem_cons.mp h with h | h
  · exact ⟨4, by norm_num, by norm_num, h⟩
  rcases List.mem_cons.mp h with h | h
  · exact ⟨5, by norm_num, by norm_num, h⟩
  · simp at h

lemma mem_recipientNodes_elim {recipients : List String} {w : WalletNode}
    (h : w ∈ recipientNodes recipients) :
    ∃ k, k < recipients.length ∧ w.id = "RECIPIENT_" ++ toString k := by
  unfold recipientNodes at h
  obtain ⟨q, hq, rfl⟩ := List.mem_map.mp h
  exact ⟨q.1, mem_enum_fst_lt hq, rfl⟩

/-- Stage-1 hub funding amounts are positive (the hub always pays at least the
two forwarding fees). -/
lemma amountToFundHub_pos (mkPk mkId : ℕ → String) (rentExemptionLamports : ℚ)
    (pairs : List (WalletNode × ℚ)) (hnd : ((List.range 6).map mkId).Nodup)
    (hrent : 0 ≤ rentExemptionLamports) (hamts : ∀ r ∈ pairs, 0 ≤ r.2)
    (j : ℕ) (hj : j < 2) :
    0 < amountToFundHub mkPk mkId rentExemptionLamports pairs (interNode mkPk mkId j) := by
  unfold amountToFundHub
  rw [show (interNode mkPk mkId j).id = mkId j from rfl, hda_apply mkPk mkId j hj hnd]
  simp only [List.length_cons, List.length_nil, List.map_cons, List.map_nil,
    List.sum_cons, List.sum_nil]
  have hfee := txFeeSOL_pos
  have hrentS : 0 ≤ rentExemptionSOL rentExemptionLamports := by
    unfold rentExemptionSOL LAMPORTS_PER_SOL
    positivity
  have hsum : ∀ k : ℕ,
      0 ≤ ((distributorRecipientAssignments mkPk mkId pairs
          (interNode mkPk mkId k).id).map fun r => r.2).sum := by
    intro k
    apply List.sum_nonneg
    intro x hx
    obtain ⟨r, hr, rfl⟩ := List.mem_map.mp hx
    exact hamts r (dra_subset mkPk mkId pairs _ r hr)
  have h1 := hsum (2 + j)
  have h2 := hsum (4 + j)
  have hc1 : (0 : ℚ) ≤ ((distributorRecipientAssignments mkPk mkId pairs
      (interNode mkPk mkId (2 + j)).id).length : ℚ) := Nat.cast_nonneg _
  have hc2 : (0 : ℚ) ≤ ((distributorRecipientAssignments mkPk mkId pairs
      (interNode mkPk mkId (4 + j)).id).length : ℚ) := Nat.cast_nonneg _
  push_cast
  nlinarith [mul_nonneg hc1 hfee.le, mul_nonneg hc2 hfee.le]

/-- With fresh ids, non-negative rent and non-negative amounts, Stage 1 emits
exactly one edge per hub. -/
lemma stage1Edges_eq (mkPk mkId : ℕ → String) (randT : ℕ → ℚ)
    (rentExemptionLamports : ℚ) (totalSeconds : ℚ) (pairs : List (WalletNode × ℚ))
    (hnd : ((List.range 6).map mkId).Nodup)
    (hrent : 0 ≤ rentExemptionLamports) (hamts : ∀ r ∈ pairs, 0 ≤ r.2) :
    stage1Edges mkPk mkId randT rentExemptionLamports totalSeconds pairs
      = [{ «from» := "SOURCE", «to» := (interNode mkPk mkId 0).id
           amount := amountToFundHub mkPk mkId rentExemptionLamports pairs (interNode mkPk mkId 0)
           sendTime := ⌊randT 0 * totalSeconds * (2 / 10)⌋ },
         { «from» := "SOURCE", «to» := (interNode mkPk mkId 1).id
           amount := amountToFundHub mkPk mkId rentExemptionLamports pairs (interNode mkPk mkId 1)
           sendTime := ⌊randT 1 * totalSeconds * (2 / 10)⌋ }] := by
  unfold stage1Edges
  have hH : (hubs mkPk mkId).enum
      = [(0, interNode mkPk mkId 0), (1, interNode mkPk mkId 1)] := rfl
  rw [hH]
  rw [List.filterMap_cons_some
      (by rw [if_pos (amountToFundHub_pos mkPk mkId rentExemptionLamports pairs hnd hrent hamts 0 (by norm_num))]),
    List.filterMap_cons_some
      (by rw [if_pos (amountToFundHub_pos mkPk mkId rentExemptionLamports pairs hnd hrent hamts 1 (by norm_num))]),
    List.filterMap_nil]

/-! ### Per-stage endpoint shapes -/

lemma stage1Edges_shape {mkPk mkId : ℕ → String} {randT : ℕ → ℚ}
    {rentExemptionLamports totalSeconds : ℚ} {pairs : List (WalletNode × ℚ)}
    {e : FundingPlanStep}
    (he : e ∈ stage1Edges mkPk mkId randT rentExemptionLamports totalSeconds pairs) :
    e.«from» = "SOURCE" ∧ ∃ k, k < 2 ∧ e.«to» = mkId k := by
  obtain ⟨q, hq, _, rfl⟩ := mem_stage1_elim he
  obtain ⟨k, hk, hqe⟩ := mem_hubs_elim (mem_enum_snd hq)
  refine ⟨rfl, k, hk, ?_⟩
  show q.2.id = mkId k
  rw [hqe]
  rfl

lemma stage2Edges_shape {mkPk mkId : ℕ → String} {randT : ℕ → ℚ}
    {totalSeconds : ℚ} {pairs : List (WalletNode × ℚ)} {e : FundingPlanStep}
    (he : e ∈ stage2Edges mkPk mkId randT totalSeconds pairs) :
    (∃ k, k < 2 ∧ e.«from» = mkId k) ∧ (∃ k, 2 ≤ k ∧ k < 6 ∧ e.«to» = mkId k) := by
  obtain ⟨q, hq, _, rfl⟩ := mem_stage2_elim he
  have h2 := mem_stage2Pairs_elim (mem_enum_snd hq)
  obtain ⟨k1, hk1, hq1⟩ := mem_hubs_elim h2.1
  obtain ⟨k2, hk2a, hk2b, hq2⟩ := mem_distributors_elim h2.2
  constructor
  · refine ⟨k1, hk1, ?_⟩
    show q.2.1.id = mkId k1
    rw [hq1]
    rfl
  · refine ⟨k2, hk2a, hk2b, ?_⟩
    show q.2.2.id = mkId k2
    rw [hq2]
    rfl

lemma stage3Edges_shape {mkPk mkId : ℕ → String} {randT : ℕ → ℚ}
    {totalSeconds : ℚ} {pairs : List (WalletNode × ℚ)} {e : FundingPlanStep}
    (he : e ∈ stage3Edges mkPk mkId randT totalSeconds pairs) :
    (∃ k, 2 ≤ k ∧ k < 6 ∧ e.«from» = mkId k)
      ∧ ∃ r ∈ pairs, e.«to» = r.1.id ∧ e.amount = r.2 := by
  obtain ⟨q, hq, rfl⟩ := mem_stage3_elim he
  have h2 := mem_stage3Pairs_elim (mem_enum_snd hq)
  obtain ⟨k, hka, hkb, hqd⟩ := mem_distributors_elim h2.1
  constructor
  · refine ⟨k, hka, hkb, ?_⟩
    show q.2.1.id = mkId k
    rw [hqd]
    rfl
  · exact ⟨q.2.2, h2.2, rfl, rfl⟩

lemma stage3Edges_map_to (mkPk mkId : ℕ → String) (randT : ℕ → ℚ)
    (totalSeconds : ℚ) (pairs : List (WalletNode × ℚ)) :
    (stage3Edges mkPk mkId randT totalSeconds pairs).map (fun e => e.«to»)
      = (stage3Pairs mkPk mkId pairs).map (fun x => x.2.1.id) := by
  unfold stage3Edges
  rw [List.map_map]
  exact enum_map_snd_fn (fun x : WalletNode × (WalletNode × ℚ) => x.2.1.id) _

lemma stage3Edges_map_amount (mkPk mkId : ℕ → String) (randT : ℕ → ℚ)
    (totalSeconds : ℚ) (pairs : List (WalletNode × ℚ)) :
    (stage3Edges mkPk mkId randT totalSeconds pairs).map (fun e => e.amount)
      = (stage3Pairs mkPk mkId pairs).map (fun x => x.2.2) := by
  unfold stage3Edges
  rw [List.map_map]
  exact enum_map_snd_fn (fun x : WalletNode × (WalletNode × ℚ) => x.2.2) _

lemma stage3Edges_length (mkPk mkId : ℕ → String) (randT : ℕ → ℚ)
    (totalSeconds : ℚ) (pairs : List (WalletNode × ℚ))
    (hnd : ((List.range 6).map mkId).Nodup) :
    (stage3Edges mkPk mkId randT totalSeconds pairs).length = pairs.length := by
  have h1 : (stage3Edges mkPk mkId randT totalSeconds pairs).length
      = ((stage3Edges mkPk mkId randT totalSeconds pairs).map (fun e => e.«to»)).length :=
    (List.length_map _ _).symm
  rw [h1, stage3Edges_map_to]
  have h2 : ((stage3Pairs mkPk mkId pairs).map (fun x => x.2.1.id)).length
      = (stage3Pairs mkPk mkId pairs).length := List.length_map _ _
  rw [h2]
  have h3 : (stage3Pairs mkPk mkId pairs).length
      = ((stage3Pairs mkPk mkId pairs).map Prod.snd).length := (List.length_map _ _).symm
  rw [h3, (stage3Pairs_snd_perm mkPk mkId pairs hnd).length_eq]

/-- The ids of the recipient nodes, as generated. -/
lemma recipientNodes_map_id (recipients : List String) :
    (recipientNodes recipients).map (fun w => w.id)
      = (List.range recipients.length).map (fun k => "RECIPIENT_" ++ toString k) := by
  unfold recipientNodes
  rw [List.map_map]
  exact enum_map_fst_fn (fun k => "RECIPIENT_" ++ toString k) recipients

/-! ### Claim C4: one terminal edge per recipient, exact distributed total -/

lemma to_not_rid {mkId : ℕ → String} {n : ℕ} (hg : GoodIds mkId n) {s : String}
    (hk : ∃ k, k < 6 ∧ s = mkId k) :
    (∀ i < n, s ≠ "RECIPIENT_" ++ toString i) ∧ s ∉ recipientIds n := by
  obtain ⟨k, hk6, rfl⟩ := hk
  constructor
  · intro i hi
    exact hg.2.2 k hk6 i hi
  · intro hmem
    obtain ⟨j, hj, hje⟩ := List.mem_map.mp hmem
    exact hg.2.2 k hk6 j (List.mem_range.mp hj) hje.symm

lemma stage3_to_mem_rid {mkPk mkId : ℕ → String} {randSplit randT : ℕ → ℚ}
    {rentExemptionLamports : ℚ} {recipients : List String} {totalSol totalSeconds : ℚ}
    {e : FundingPlanStep}
    (he : e ∈ stage3Edges mkPk mkId randT totalSeconds
      (plannedPairs randSplit rentExemptionLamports recipients totalSol)) :
    e.«to» ∈ recipientIds recipients.length := by
  obtain ⟨r, hrP, hto, -⟩ := (stage3Edges_shape he).2
  rw [hto]
  obtain ⟨k, hk, hkid⟩ := mem_recipientNodes_elim (plannedPairs_fst_mem hrP)
  rw [hkid]
  exact List.mem_map.mpr ⟨k, List.mem_range.mpr hk, rfl⟩

/-- Filtering a plan's generated edges for recipient destinations keeps
exactly the Stage-3 edges. -/
lemma plannedEdges_terminal_filter (mkPk mkId : ℕ → String) (randSplit randT : ℕ → ℚ)
    (rentExemptionLamports : ℚ) (recipients : List String) (totalSol totalSeconds : ℚ)
    (hg : GoodIds mkId recipients.length) :
    (plannedEdges mkPk mkId randSplit randT rentExemptionLamports recipients
        totalSol totalSeconds).filter
      (fun e => decide (e.«to» ∈ recipientIds recipients.length))
    = stage3Edges mkPk mkId randT totalSeconds
        (plannedPairs randSplit rentExemptionLamports recipients totalSol) := by
  rw [plannedEdges, List.filter_append, List.filter_append]
  have h1 : (stage1Edges mkPk mkId randT rentExemptionLamports totalSeconds
      (plannedPairs randSplit rentExemptionLamports recipients totalSol)).filter
        (fun e => decide (e.«to» ∈ recipientIds recipients.length)) = [] := by
    apply List.filter_eq_nil_iff.mpr
    intro e he
    simp only [decide_eq_true_eq]
    obtain ⟨-, k, hk, hto⟩ := stage1Edges_shape he
    rw [hto]
    exact (to_not_rid hg ⟨k, by omega, rfl⟩).2
  have h2 : (stage2Edges mkPk mkId randT totalSeconds
      (plannedPairs randSplit rentExemptionLamports recipients totalSol)).filter
        (fun e => decide (e.«to» ∈ recipientIds recipients.length)) = [] := by
    apply List.filter_eq_nil_iff.mpr
    intro e he
    simp only [decide_eq_true_eq]
    obtain ⟨-, k, hk2, hk6, hto⟩ := stage2Edges_shape he
    rw [hto]
    exact (to_not_rid hg ⟨k, by omega, rfl⟩).2
  have h3 : (stage3Edges mkPk mkId randT totalSeconds
      (plannedPairs randSplit rentExemptionLamports recipients totalSol)).filter
        (fun e => decide (e.«to» ∈ recipientIds recipients.length))
      = stage3Edges mkPk mkId randT totalSeconds
        (plannedPairs randSplit rentExemptionLamports recipients totalSol) := by
    apply List.filter_eq_self.mpr
    intro e he
    simp only [decide_eq_true_eq]
    exact stage3_to_mem_rid he
  rw [h1, h2, h3, List.nil_append, List.nil_append]

/-- The Stage-3 amounts sum to exactly the distributed amount. -/
lemma stage3Edges_sum (mkPk mkId : ℕ → String) (randSplit randT : ℕ → ℚ)
    (rentExemptionLamports : ℚ) (recipients : List String) (totalSol totalSeconds : ℚ)
    (hnd : ((List.range 6).map mkId).Nodup)
    (hr : ∀ i, 0 ≤ randSplit i ∧ randSplit i < 1)
    (hn : 1 ≤ recipients.length)
    (hcost : totalCost rentExemptionLamports recipients.length < totalSol) :
    ((stage3Edges mkPk mkId randT totalSeconds
        (plannedPairs randSplit rentExemptionLamports recipients totalSol)).map
          fun e => e.amount).sum
      = totalSol - totalCost rentExemptionLamports recipients.length := by
  have hsplitlen : (randomSplit randSplit
      (totalSol - totalCost rentExemptionLamports recipients.length)
      recipients.length).length = recipients.length :=
    randomSplit_length _ _ _ hn (sub_pos.mpr hcost)
  have hnodeslen : (recipientNodes recipients).length = recipients.length := by
    simp [recipientNodes]
  have hsnd : (plannedPairs randSplit rentExemptionLamports recipients totalSol).map
      Prod.snd = randomSplit randSplit
        (totalSol - totalCost rentExemptionLamports recipients.length)
        recipients.length := by
    unfold plannedPairs recipientPairs
    exact List.map_snd_zip _ _ (by rw [hnodeslen, hsplitlen])
  calc ((stage3Edges mkPk mkId randT totalSeconds
          (plannedPairs randSplit rentExemptionLamports recipients totalSol)).map
            fun e => e.amount).sum
      = ((stage3Pairs mkPk mkId
          (plannedPairs randSplit rentExemptionLamports recipients totalSol)).map
            fun x => x.2.2).sum := by
        rw [stage3Edges_map_amount]
    _ = (((stage3Pairs mkPk mkId
          (plannedPairs randSplit rentExemptionLamports recipients totalSol)).map
            Prod.snd).map fun r : WalletNode × ℚ => r.2).sum := by
        rw [List.map_map]
        rfl
    _ = ((plannedPairs randSplit rentExemptionLamports recipients totalSol).map
          fun r : WalletNode × ℚ => r.2).sum :=
        List.Perm.sum_eq ((stage3Pairs_snd_perm mkPk mkId _ hnd).map _)
    _ = ((plannedPairs randSplit rentExemptionLamports recipients totalSol).map
          Prod.snd).sum := rfl
    _ = (randomSplit randSplit
          (totalSol - totalCost rentExemptionLamports recipients.length)
          recipients.length).sum := by
        rw [hsnd]
    _ = totalSol - totalCost rentExemptionLamports recipients.length :=
        randomSplit_sum _ _ _ hr hn (sub_pos.mpr hcost)

/-- C4 (amended: at least one recipient is required — with an empty recipient
list the planner still charges `totalCost` but emits no terminal edge, so the
terminal sum is `0`, not `totalAmount - totalCost`): in every successful plan
each recipient's node id is the `to` of exactly one distributor-to-recipient
edge, and the terminal amounts sum exactly to `totalAmount - totalCost`. -/
theorem claim_C4 (mkPk mkId : ℕ → String) (randSplit randT : ℕ → ℚ)
    (rentExemptionLamports : ℚ) (srcKey : Bool) (srcPk : String)
    (recipients : List String) (totalSol totalSeconds : ℚ)
    (hg : GoodIds mkId recipients.length)
    (hinj : RecipIdsInj recipients.length)
    (hr : ∀ i, 0 ≤ randSplit i ∧ randSplit i < 1)
    (hn : 1 ≤ recipients.length)
    (g : FundingGraph)
    (h : buildFundingGraph mkPk mkId randSplit randT rentExemptionLamports srcKey srcPk
      recipients totalSol totalSeconds = Except.ok g) :
    (∀ i < recipients.length,
      (g.edges.filter fun e => e.«to» = "RECIPIENT_" ++ toString i).length = 1)
    ∧ ((g.edges.filter fun e => e.«to» ∈ recipientIds recipients.length).map
        fun e => e.amount).sum
      = totalSol - totalCost rentExemptionLamports recipients.length := by
  have hcost := (build_ok_elim h).1
  have hperm := build_ok_edges_perm h
  have hnd : ((List.range 6).map mkId).Nodup := hg.1
  have hsplitlen : (randomSplit randSplit
      (totalSol - totalCost rentExemptionLamports recipients.length)
      recipients.length).length = recipients.length :=
    randomSplit_length _ _ _ hn (sub_pos.mpr hcost)
  have hnodeslen : (recipientNodes recipients).length = recipients.length := by
    simp [recipientNodes]
  have hfst : (plannedPairs randSplit rentExemptionLamports recipients totalSol).map
      Prod.fst = recipientNodes recipients := by
    unfold plannedPairs recipientPairs
    exact List.map_fst_zip _ _ (by rw [hnodeslen, hsplitlen])
  constructor
  · intro i hi
    rw [← List.countP_eq_length_filter, List.Perm.countP_eq _ hperm, plannedEdges,
      List.countP_append, List.countP_append]
    have h1 : List.countP (fun e => decide (e.«to» = "RECIPIENT_" ++ toString i))
        (stage1Edges mkPk mkId randT rentExemptionLamports totalSeconds
          (plannedPairs randSplit rentExemptionLamports recipients totalSol)) = 0 := by
      apply List.countP_eq_zero.mpr
      intro e he
      simp only [decide_eq_true_eq]
      obtain ⟨-, k, hk, hto⟩ := stage1Edges_shape he
      rw [hto]
      exact hg.2.2 k (by omega) i hi
    have h2 : List.countP (fun e => decide (e.«to» = "RECIPIENT_" ++ toString i))
        (stage2Edges mkPk mkId randT totalSeconds
          (plannedPairs randSplit rentExemptionLamports recipients totalSol)) = 0 := by
      apply List.countP_eq_zero.mpr
      intro e he
      simp only [decide_eq_true_eq]
      obtain ⟨-, k, hk2, hk6, hto⟩ := stage2Edges_shape he
      rw [hto]
      exact hg.2.2 k (by omega) i hi
    have h3 : List.countP (fun e => decide (e.«to» = "RECIPIENT_" ++ toString i))
        (stage3Edges mkPk mkId randT totalSeconds
          (plannedPairs randSplit rentExemptionLamports recipients totalSol)) = 1 := by
      calc List.countP (fun e => decide (e.«to» = "RECIPIENT_" ++ toString i))
            (stage3Edges mkPk mkId randT totalSeconds
              (plannedPairs randSplit rentExemptionLamports recipients totalSol))
          = List.countP (fun s : String => decide (s = "RECIPIENT_" ++ toString i))
              ((stage3Edges mkPk mkId randT totalSeconds
                (plannedPairs randSplit rentExemptionLamports recipients totalSol)).map
                  fun e => e.«to») := by
            rw [List.countP_map]
            rfl
        _ = List.countP (fun s : String => decide (s = "RECIPIENT_" ++ toString i))
              ((stage3Pairs mkPk mkId
                (plannedPairs randSplit rentExemptionLamports recipients totalSol)).map
                  fun x => x.2.1.id) := by
            rw [stage3Edges_map_to]
        _ = List.countP (fun x : WalletNode × (WalletNode × ℚ) =>
              decide (x.2.1.id = "RECIPIENT_" ++ toString i))
              (stage3Pairs mkPk mkId
                (plannedPairs randSplit rentExemptionLamports recipients totalSol)) := by
            rw [List.countP_map]
            rfl
        _ = List.countP (fun r : WalletNode × ℚ =>
              decide (r.1.id = "RECIPIENT_" ++ toString i))
              ((stage3Pairs mkPk mkId
                (plannedPairs randSplit rentExemptionLamports recipients totalSol)).map
                  Prod.snd) := by
            rw [List.countP_map]
            rfl
        _ = List.countP (fun r : WalletNode × ℚ =>
              decide (r.1.id = "RECIPIENT_" ++ toString i))
              (plannedPairs randSplit rentExemptionLamports recipients totalSol) :=
            List.Perm.countP_eq _ (stage3Pairs_snd_perm mkPk mkId _ hnd)
        _ = List.countP (fun w : WalletNode => decide (w.id = "RECIPIENT_" ++ toString i))
              ((plannedPairs randSplit rentExemptionLamports recipients totalSol).map
                Prod.fst) := by
            rw [List.countP_map]
            rfl
        _ = List.countP (fun w : WalletNode => decide (w.id = "RECIPIENT_" ++ toString i))
              (recipientNodes recipients) := by
            rw [hfst]
        _ = List.countP (fun s : String => decide (s = "RECIPIENT_" ++ toString i))
              ((recipientNodes recipients).map fun w => w.id) := by
            rw [List.countP_map]
            rfl
        _ = List.countP (fun s : String => decide (s = "RECIPIENT_" ++ toString i))
              ((List.range recipients.length).map fun k => "RECIPIENT_" ++ toString k) := by
            rw [recipientNodes_map_id]
        _ = List.countP (fun k : ℕ =>
              decide ("RECIPIENT_" ++ toString k = "RECIPIENT_" ++ toString i))
              (List.range recipients.length) := by
            rw [List.countP_map]
            rfl
        _ = List.countP (fun k : ℕ => k == i) (List.range recipients.length) :=
            List.countP_congr (fun k hk => by
              simp only [decide_eq_true_eq, beq_iff_eq]
              exact ⟨fun hx => hinj k (List.mem_range.mp hk) i hi hx, fun hx => by rw [hx]⟩)
        _ = List.count i (List.range recipients.length) := rfl
        _ = 1 := List.count_eq_one_of_mem (List.nodup_range _) (List.mem_range.mpr hi)
    rw [h1, h2, h3]
  · have hsum0 : ((g.edges.filter fun e =>
        e.«to» ∈ recipientIds recipients.length).map fun e => e.amount).sum
      = (((plannedEdges mkPk mkId randSplit randT rentExemptionLamports recipients
          totalSol totalSeconds).filter fun e =>
            e.«to» ∈ recipientIds recipients.length).map fun e => e.amount).sum :=
      List.Perm.sum_eq ((hperm.filter _).map _)
    rw [hsum0, plannedEdges_terminal_filter mkPk mkId randSplit randT rentExemptionLamports
      recipients totalSol totalSeconds hg]
    exact stage3Edges_sum mkPk mkId randSplit randT rentExemptionLamports recipients
      totalSol totalSeconds hnd hr hn hcost

/-- C4 counterexample: with an empty recipient list (and ample funds) the plan
has no terminal edge at all, so the terminal-fan-out sum is `0`, not
`totalAmount - totalCost`. -/
theorem claim_C4_counterexample :
    ∃ g, buildFundingGraph mkPkW mkIdW halfRand halfRand 890880 true "SRC"
        ([] : List String) 1 300 = Except.ok g ∧
      ((g.edges.filter fun e =>
        e.«to» ∈ recipientIds (([] : List String)).length).map fun e => e.amount).sum
        ≠ 1 - totalCost 890880 (([] : List String)).length := by
  have hc : ¬ ((1 : ℚ) ≤ totalCost 890880 (([] : List String)).length) := by
    norm_num [totalCost, totalFees, totalRent, txFeeSOL, txFeeLamports,
      rentExemptionSOL, LAMPORTS_PER_SOL, NUM_LAYER_1_HUBS, NUM_LAYER_2_DISTRIBUTORS]
  refine ⟨_, by rw [buildFundingGraph, if_neg hc], ?_⟩
  have hfil : ∀ L : List FundingPlanStep,
      L.filter (fun e => decide (e.«to» ∈ recipientIds (([] : List String)).length)) = [] :=
    fun L => List.filter_eq_nil_iff.mpr (fun a _ => by simp [recipientIds])
  rw [hfil]
  simp only [List.map_nil, List.sum_nil]
  norm_num [totalCost, totalFees, totalRent, txFeeSOL, txFeeLamports,
    rentExemptionSOL, LAMPORTS_PER_SOL, NUM_LAYER_1_HUBS, NUM_LAYER_2_DISTRIBUTORS]

/-- Witness for C4 on the concrete successful six-recipient plan. -/
theorem claim_C4_witness :
    (∀ i < sixRecipients.length,
      (gOkW.edges.filter fun e => e.«to» = "RECIPIENT_" ++ toString i).length = 1)
    ∧ ((gOkW.edges.filter fun e => e.«to» ∈ recipientIds sixRecipients.length).map
        fun e => e.amount).sum = 1 - totalCost 890880 sixRecipients.length :=
  claim_C4 mkPkW mkIdW halfRand halfRand 890880 true "SRC" sixRecipients 1 300
    (by unfold GoodIds; decide) (by unfold RecipIdsInj; decide)
    (fun _ => by norm_num [halfRand]) (by decide) gOkW buildW_ok

/-! ### Claim C9: plan shape for six recipients -/

lemma bucket_subset (pairs : List (WalletNode × ℚ)) (j : ℕ) :
    ∀ r ∈ bucket pairs j, r ∈ pairs := by
  intro r hr
  obtain ⟨p, hp, rfl⟩ := List.mem_map.mp hr
  exact mem_enum_snd (List.mem_filter.mp hp).1

lemma amountToFundDistributor_pos (mkPk mkId : ℕ → String)
    (pairs : List (WalletNode × ℚ)) (hnd : ((List.range 6).map mkId).Nodup)
    (hamts : ∀ r ∈ pairs, 0 < r.2) (k : ℕ) (h2 : 2 ≤ k) (h6 : k < 6)
    (hbne : bucket pairs (k - 2) ≠ []) :
    0 < amountToFundDistributor mkPk mkId pairs (interNode mkPk mkId k) := by
  unfold amountToFundDistributor
  rw [show (interNode mkPk mkId k).id = mkId k from rfl,
    dra_bucket mkPk mkId pairs hnd k h2 h6]
  have hfee := txFeeSOL_pos
  have hsumpos : 0 < ((bucket pairs (k - 2)).map fun r => r.2).sum := by
    apply List.sum_pos
    · intro x hx
      obtain ⟨r, hr, rfl⟩ := List.mem_map.mp hx
      exact hamts r (bucket_subset pairs (k - 2) r hr)
    · intro hmapnil
      exact hbne (by simpa using hmapnil)
  have hlen : (0 : ℚ) ≤ ((bucket pairs (k - 2)).length : ℚ) := Nat.cast_nonneg _
  nlinarith [mul_nonneg hlen hfee.le]

/-- With all four distributor amounts positive, Stage 2 emits exactly one edge
per (hub, distributor) pair, in iteration order. -/
lemma stage2Edges_eq_of_pos (mkPk mkId : ℕ → String) (randT : ℕ → ℚ)
    (totalSeconds : ℚ) (pairs : List (WalletNode × ℚ))
    (hnd : ((List.range 6).map mkId).Nodup)
    (hpos : ∀ k, 2 ≤ k → k < 6 →
      0 < amountToFundDistributor mkPk mkId pairs (interNode mkPk mkId k)) :
    stage2Edges mkPk mkId randT totalSeconds pairs
      = [{ «from» := (interNode mkPk mkId 0).id, «to» := (interNode mkPk mkId 2).id
           amount := amountToFundDistributor mkPk mkId pairs (interNode mkPk mkId 2)
           sendTime := ⌊totalSeconds * (2 / 10)
             + randT (NUM_LAYER_1_HUBS + 0) * (totalSeconds * (3 / 10))⌋ },
         { «from» := (interNode mkPk mkId 0).id, «to» := (interNode mkPk mkId 4).id
           amount := amountToFundDistributor mkPk mkId pairs (interNode mkPk mkId 4)
           sendTime := ⌊totalSeconds * (2 / 10)
             + randT (NUM_LAYER_1_HUBS + 1) * (totalSeconds * (3 / 10))⌋ },
         { «from» := (interNode mkPk mkId 1).id, «to» := (interNode mkPk mkId 3).id
           amount := amountToFundDistributor mkPk mkId pairs (interNode mkPk mkId 3)
           sendTime := ⌊totalSeconds * (2 / 10)
             + randT (NUM_LAYER_1_HUBS + 2) * (totalSeconds * (3 / 10))⌋ },
         { «from» := (interNode mkPk mkId 1).id, «to» := (interNode mkPk mkId 5).id
           amount := amountToFundDistributor mkPk mkId pairs (interNode mkPk mkId 5)
           sendTime := ⌊totalSeconds * (2 / 10)
             + randT (NUM_LAYER_1_HUBS + 3) * (totalSeconds * (3 / 10))⌋ }] := by
  unfold stage2Edges
  rw [stage2Pairs_eq mkPk mkId hnd]
  rw [show ([(interNode mkPk mkId 0, interNode mkPk mkId 2),
      (interNode mkPk mkId 0, interNode mkPk mkId 4),
      (interNode mkPk mkId 1, interNode mkPk mkId 3),
      (interNode mkPk mkId 1, interNode mkPk mkId 5)]).enum
    = [(0, (interNode mkPk mkId 0, interNode mkPk mkId 2)),
       (1, (interNode mkPk mkId 0, interNode mkPk mkId 4)),
       (2, (interNode mkPk mkId 1, interNode mkPk mkId 3)),
       (3, (interNode mkPk mkId 1, interNode mkPk mkId 5))] from rfl]
  rw [List.filterMap_cons_some (by rw [if_pos (hpos 2 (by norm_num) (by norm_num))]),
    List.filterMap_cons_some (by rw [if_pos (hpos 4 (by norm_num) (by norm_num))]),
    List.filterMap_cons_some (by rw [if_pos (hpos 3 (by norm_num) (by norm_num))]),
    List.filterMap_cons_some (by rw [if_pos (hpos 5 (by norm_num) (by norm_num))]),
    List.filterMap_nil]


/-- A successful plan always contains exactly two source-origin edges (one per
hub), never one. -/
lemma plannedEdges_source_count (mkPk mkId : ℕ → String) (randSplit randT : ℕ → ℚ)
    (rentExemptionLamports : ℚ) (recipients : List String) (totalSol totalSeconds : ℚ)
    (hg : GoodIds mkId recipients.length)
    (hr : ∀ i, 0 ≤ randSplit i ∧ randSplit i < 1)
    (hrent : 0 ≤ rentExemptionLamports)
    (hcost : totalCost rentExemptionLamports recipients.length < totalSol) :
    List.countP (fun e => decide (e.«from» = "SOURCE"))
      (plannedEdges mkPk mkId randSplit randT rentExemptionLamports recipients
        totalSol totalSeconds) = 2 := by
  have hnd : ((List.range 6).map mkId).Nodup := hg.1
  have hamts : ∀ r ∈ plannedPairs randSplit rentExemptionLamports recipients totalSol,
      0 ≤ r.2 :=
    fun r hr2 => le_of_lt (plannedPairs_amount_pos _ _ _ _ hr hcost r hr2)
  rw [plannedEdges, List.countP_append, List.countP_append]
  have h1 : List.countP (fun e => decide (e.«from» = "SOURCE"))
      (stage1Edges mkPk mkId randT rentExemptionLamports totalSeconds
        (plannedPairs randSplit rentExemptionLamports recipients totalSol)) = 2 := by
    have hall : ∀ e ∈ stage1Edges mkPk mkId randT rentExemptionLamports totalSeconds
        (plannedPairs randSplit rentExemptionLamports recipients totalSol),
        (fun e : FundingPlanStep => decide (e.«from» = "SOURCE")) e = true := by
      intro e he
      simp only [decide_eq_true_eq]
      exact (stage1Edges_shape he).1
    rw [List.countP_eq_length.mpr hall,
      stage1Edges_eq mkPk mkId randT rentExemptionLamports totalSeconds _ hnd hrent hamts]
    rfl
  have h2 : List.countP (fun e => decide (e.«from» = "SOURCE"))
      (stage2Edges mkPk mkId randT totalSeconds
        (plannedPairs randSplit rentExemptionLamports recipients totalSol)) = 0 := by
    apply List.countP_eq_zero.mpr
    intro e he
    simp only [decide_eq_true_eq]
    obtain ⟨⟨k, hk, hfrom⟩, -⟩ := stage2Edges_shape he
    rw [hfrom]
    exact hg.2.1 k (by omega)
  have h3 : List.countP (fun e => decide (e.«from» = "SOURCE"))
      (stage3Edges mkPk mkId randT totalSeconds
        (plannedPairs randSplit rentExemptionLamports recipients totalSol)) = 0 := by
    apply List.countP_eq_zero.mpr
    intro e he
    simp only [decide_eq_true_eq]
    obtain ⟨⟨k, hk2, hk6, hfrom⟩, -⟩ := stage3Edges_shape he
    rw [hfrom]
    exact hg.2.1 k (by omega)
  rw [h1, h2, h3]

/-- C9 counterexample: a successful six-recipient plan has two edges leaving
the source (one per hub), not exactly one. -/
theorem claim_C9_counterexample :
    ∃ g, buildFundingGraph mkPkW mkIdW halfRand halfRand 890880 true "SRC"
        sixRecipients 1 300 = Except.ok g ∧
      ¬ ((g.edges.filter fun e => e.«from» = "SOURCE").length = 1) := by
  refine ⟨gOkW, buildW_ok, ?_⟩
  have h2 : (gOkW.edges.filter fun e => e.«from» = "SOURCE").length = 2 := by
    rw [← List.countP_eq_length_filter,
      List.Perm.countP_eq _ (build_ok_edges_perm buildW_ok)]
    exact plannedEdges_source_count mkPkW mkIdW halfRand halfRand 890880 sixRecipients 1 300
      (by unfold GoodIds; decide) (fun _ => by norm_num [halfRand]) (by norm_num) costW_lt
  omega

/-- C9 (amended: a successful plan has exactly TWO source-origin edges — one
per hub — not one): for six recipients and ample funds, the plan has exactly 2
source-origin edges, exactly 4 intermediate hub-to-distributor hop edges,
exactly 6 terminal edges, and terminal amounts + all fees + all rent
= totalAmount exactly. -/
theorem claim_C9 (mkPk mkId : ℕ → String) (randSplit randT : ℕ → ℚ)
    (rentExemptionLamports : ℚ) (srcKey : Bool) (srcPk : String)
    (recipients : List String) (totalSol totalSeconds : ℚ)
    (hg : GoodIds mkId recipients.length)
    (hr : ∀ i, 0 ≤ randSplit i ∧ randSplit i < 1)
    (hlen : recipients.length = 6)
    (hrent : 0 ≤ rentExemptionLamports)
    (g : FundingGraph)
    (h : buildFundingGraph mkPk mkId randSplit randT rentExemptionLamports srcKey srcPk
      recipients totalSol totalSeconds = Except.ok g) :
    (g.edges.filter fun e => e.«from» = "SOURCE").length = 2
    ∧ (g.edges.filter fun e =>
        (e.«from» = mkId 0 ∨ e.«from» = mkId 1)
        ∧ (e.«to» = mkId 2 ∨ e.«to» = mkId 3 ∨ e.«to» = mkId 4 ∨ e.«to» = mkId 5)).length = 4
    ∧ (g.edges.filter fun e => e.«to» ∈ recipientIds recipients.length).length = 6
    ∧ ((g.edges.filter fun e => e.«to» ∈ recipientIds recipients.length).map
        fun e => e.amount).sum
      + totalFees recipients.length + totalRent rentExemptionLamports = totalSol := by
  have hcost := (build_ok_elim h).1
  have hperm := build_ok_edges_perm h
  have hnd : ((List.range 6).map mkId).Nodup := hg.1
  have hn : 1 ≤ recipients.length := by omega
  refine ⟨?_, ?_, ?_, ?_⟩
  · rw [← List.countP_eq_length_filter, List.Perm.countP_eq _ hperm]
    exact plannedEdges_source_count mkPk mkId randSplit randT rentExemptionLamports
      recipients totalSol totalSeconds hg hr hrent hcost
  · have hampos := plannedPairs_amount_pos randSplit rentExemptionLamports recipients
      totalSol hr hcost
    have hPlen : (plannedPairs randSplit rentExemptionLamports recipients totalSol).length
        = 6 := by
      rw [plannedPairs_length randSplit rentExemptionLamports recipients totalSol hcost, hlen]
    obtain ⟨a, b, c, d, e2, f, hP⟩ := exists_six _ hPlen
    have hpos : ∀ k, 2 ≤ k → k < 6 →
        0 < amountToFundDistributor mkPk mkId
          (plannedPairs randSplit rentExemptionLamports recipients totalSol)
          (interNode mkPk mkId k) := by
      intro k h2 h6
      apply amountToFundDistributor_pos mkPk mkId _ hnd hampos k h2 h6
      interval_cases k
      · rw [show (2 : ℕ) - 2 = 0 from rfl, hP, (bucket_six a b c d e2 f).1]
        simp
      · rw [show (3 : ℕ) - 2 = 1 from rfl, hP, (bucket_six a b c d e2 f).2.1]
        simp
      · rw [show (4 : ℕ) - 2 = 2 from rfl, hP, (bucket_six a b c d e2 f).2.2.1]
        simp
      · rw [show (5 : ℕ) - 2 = 3 from rfl, hP, (bucket_six a b c d e2 f).2.2.2]
        simp
    rw [← List.countP_eq_length_filter, List.Perm.countP_eq _ hperm]
    rw [plannedEdges, List.countP_append, List.countP_append]
    have h1 : List.countP (fun e => decide ((e.«from» = mkId 0 ∨ e.«from» = mkId 1)
        ∧ (e.«to» = mkId 2 ∨ e.«to» = mkId 3 ∨ e.«to» = mkId 4 ∨ e.«to» = mkId 5)))
        (stage1Edges mkPk mkId randT rentExemptionLamports totalSeconds
          (plannedPairs randSplit rentExemptionLamports recipients totalSol)) = 0 := by
      apply List.countP_eq_zero.mpr
      intro e he
      simp only [decide_eq_true_eq]
      rintro ⟨h01, -⟩
      rcases h01 with hh | hh
      · rw [(stage1Edges_shape he).1] at hh
        exact hg.2.1 0 (by norm_num) hh.symm
      · rw [(stage1Edges_shape he).1] at hh
        exact hg.2.1 1 (by norm_num) hh.symm
    have h2 : List.countP (fun e => decide ((e.«from» = mkId 0 ∨ e.«from» = mkId 1)
        ∧ (e.«to» = mkId 2 ∨ e.«to» = mkId 3 ∨ e.«to» = mkId 4 ∨ e.«to» = mkId 5)))
        (stage2Edges mkPk mkId randT totalSeconds
          (plannedPairs randSplit rentExemptionLamports recipients totalSol)) = 4 := by
      rw [stage2Edges_eq_of_pos mkPk mkId randT totalSeconds _ hnd hpos]
      refine Eq.trans (List.countP_eq_length.mpr ?_) rfl
      intro e he
      simp only [List.mem_cons, List.not_mem_nil, or_false] at he
      rcases he with rfl | rfl | rfl | rfl
      · simp only [decide_eq_true_eq]
        exact ⟨Or.inl rfl, Or.inl rfl⟩
      · simp only [decide_eq_true_eq]
        exact ⟨Or.inl rfl, Or.inr (Or.inr (Or.inl rfl))⟩
      · simp only [decide_eq_true_eq]
        exact ⟨Or.inr rfl, Or.inr (Or.inl rfl)⟩
      · simp only [decide_eq_true_eq]
        exact ⟨Or.inr rfl, Or.inr (Or.inr (Or.inr rfl))⟩
    have h3 : List.countP (fun e => decide ((e.«from» = mkId 0 ∨ e.«from» = mkId 1)
        ∧ (e.«to» = mkId 2 ∨ e.«to» = mkId 3 ∨ e.«to» = mkId 4 ∨ e.«to» = mkId 5)))
        (stage3Edges mkPk mkId randT totalSeconds
          (plannedPairs randSplit rentExemptionLamports recipients totalSol)) = 0 := by
      apply List.countP_eq_zero.mpr
      intro e he
      simp only [decide_eq_true_eq]
      rintro ⟨h01, -⟩
      obtain ⟨⟨k, hk2, hk6, hfrom⟩, -⟩ := stage3Edges_shape he
      rcases h01 with hh | hh
      · rw [hfrom] at hh
        have := mkId_lt6_inj hnd (by omega) (by norm_num) hh
        omega
      · rw [hfrom] at hh
        have := mkId_lt6_inj hnd (by omega) (by norm_num) hh
        omega
    rw [h1, h2, h3]
  · rw [← List.countP_eq_length_filter, List.Perm.countP_eq _ hperm,
      List.countP_eq_length_filter,
      plannedEdges_terminal_filter mkPk mkId randSplit randT rentExemptionLamports
        recipients totalSol totalSeconds hg,
      stage3Edges_length mkPk mkId randT totalSeconds _ hnd,
      plannedPairs_length randSplit rentExemptionLamports recipients totalSol hcost, hlen]
  · have hsum0 : ((g.edges.filter fun e =>
        e.«to» ∈ recipientIds recipients.length).map fun e => e.amount).sum
      = (((plannedEdges mkPk mkId randSplit randT rentExemptionLamports recipients
          totalSol totalSeconds).filter fun e =>
            e.«to» ∈ recipientIds recipients.length).map fun e => e.amount).sum :=
      List.Perm.sum_eq ((hperm.filter _).map _)
    rw [hsum0, plannedEdges_terminal_filter mkPk mkId randSplit randT rentExemptionLamports
        recipients totalSol totalSeconds hg,
      stage3Edges_sum mkPk mkId randSplit randT rentExemptionLamports recipients
        totalSol totalSeconds hnd hr hn hcost, totalCost]
    ring

/-- Witness for C9 on the concrete successful six-recipient plan. -/
theorem claim_C9_witness :
    (gOkW.edges.filter fun e => e.«from» = "SOURCE").length = 2
    ∧ (gOkW.edges.filter fun e =>
        (e.«from» = mkIdW 0 ∨ e.«from» = mkIdW 1)
        ∧ (e.«to» = mkIdW 2 ∨ e.«to» = mkIdW 3 ∨ e.«to» = mkIdW 4 ∨ e.«to» = mkIdW 5)).length = 4
    ∧ (gOkW.edges.filter fun e => e.«to» ∈ recipientIds sixRecipients.length).length = 6
    ∧ ((gOkW.edges.filter fun e => e.«to» ∈ recipientIds sixRecipients.length).map
        fun e => e.amount).sum
      + totalFees sixRecipients.length + totalRent 890880 = 1 :=
  claim_C9 mkPkW mkIdW halfRand halfRand 890880 true "SRC" sixRecipients 1 300
    (by unfold GoodIds; decide) (fun _ => by norm_num [halfRand]) (by decide)
    (by norm_num) gOkW buildW_ok

/-! ### Claim C2: the closure invariant at a distributor -/

lemma stage3Pairs_filter_d2 (mkPk mkId : ℕ → String) (pairs : List (WalletNode × ℚ))
    (hnd : ((List.range 6).map mkId).Nodup) :
    (stage3Pairs mkPk mkId pairs).filter (fun x => decide (x.1.id = mkId 2))
      = (bucket pairs 0).map (fun r => (interNode mkPk mkId 2, r)) := by
  rw [stage3Pairs_eq mkPk mkId pairs hnd, List.filter_append, List.filter_append,
    List.filter_append]
  have hp0 : ((bucket pairs 0).map (fun r => (interNode mkPk mkId 2, r))).filter
      (fun x => decide (x.1.id = mkId 2))
      = (bucket pairs 0).map (fun r => (interNode mkPk mkId 2, r)) := by
    apply List.filter_eq_self.mpr
    intro a ha
    obtain ⟨r, hr, rfl⟩ := List.mem_map.mp ha
    simp only [decide_eq_true_eq]
    rfl
  have hp1 : ((bucket pairs 1).map (fun r => (interNode mkPk mkId 3, r))).filter
      (fun x => decide (x.1.id = mkId 2)) = [] := by
    apply List.filter_eq_nil_iff.mpr
    intro a ha
    obtain ⟨r, hr, rfl⟩ := List.mem_map.mp ha
    simp only [decide_eq_true_eq]
    show ¬ (mkId 3 = mkId 2)
    intro hh
    have := mkId_lt6_inj hnd (by norm_num) (by norm_num) hh
    omega
  have hp2 : ((bucket pairs 2).map (fun r => (interNode mkPk mkId 4, r))).filter
      (fun x => decide (x.1.id = mkId 2)) = [] := by
    apply List.filter_eq_nil_iff.mpr
    intro a ha
    obtain ⟨r, hr, rfl⟩ := List.mem_map.mp ha
    simp only [decide_eq_true_eq]
    show ¬ (mkId 4 = mkId 2)
    intro hh
    have := mkId_lt6_inj hnd (by norm_num) (by norm_num) hh
    omega
  have hp3 : ((bucket pairs 3).map (fun r => (interNode mkPk mkId 5, r))).filter
      (fun x => decide (x.1.id = mkId 2)) = [] := by
    apply List.filter_eq_nil_iff.mpr
    intro a ha
    obtain ⟨r, hr, rfl⟩ := List.mem_map.mp ha
    simp only [decide_eq_true_eq]
    show ¬ (mkId 5 = mkId 2)
    intro hh
    have := mkId_lt6_inj hnd (by norm_num) (by norm_num) hh
    omega
  rw [hp0, hp1, hp2, hp3]
  simp

lemma stage3Edges_from_d2_map_amount (mkPk mkId : ℕ → String) (randT : ℕ → ℚ)
    (totalSeconds : ℚ) (pairs : List (WalletNode × ℚ))
    (hnd : ((List.range 6).map mkId).Nodup) :
    ((stage3Edges mkPk mkId randT totalSeconds pairs).filter
        (fun e => decide (e.«from» = mkId 2))).map (fun e => e.amount)
      = (bucket pairs 0).map (fun r => r.2) := by
  unfold stage3Edges
  rw [List.filter_map, List.map_map]
  have h1 : (((stage3Pairs mkPk mkId pairs).enum.filter
        (fun q => decide (q.2.1.id = mkId 2))).map (fun q => q.2.2.2))
      = ((stage3Pairs mkPk mkId pairs).filter
        (fun x => decide (x.1.id = mkId 2))).map (fun x => x.2.2) :=
    enum_filter_map_snd_fn
      (fun x : WalletNode × (WalletNode × ℚ) => decide (x.1.id = mkId 2))
      (fun x : WalletNode × (WalletNode × ℚ) => x.2.2) (stage3Pairs mkPk mkId pairs)
  show (((stage3Pairs mkPk mkId pairs).enum.filter
      (fun q => decide (q.2.1.id = mkId 2))).map (fun q => q.2.2.2))
    = (bucket pairs 0).map (fun r => r.2)
  rw [h1, stage3Pairs_filter_d2 mkPk mkId pairs hnd, List.map_map]
  rfl

lemma stage3Edges_from_d2_length (mkPk mkId : ℕ → String) (randT : ℕ → ℚ)
    (totalSeconds : ℚ) (pairs : List (WalletNode × ℚ))
    (hnd : ((List.range 6).map mkId).Nodup) :
    ((stage3Edges mkPk mkId randT totalSeconds pairs).filter
        (fun e => decide (e.«from» = mkId 2))).length = (bucket pairs 0).length := by
  unfold stage3Edges
  rw [List.filter_map, List.length_map]
  have h1 : ((stage3Pairs mkPk mkId pairs).enum.filter
        (fun q => decide (q.2.1.id = mkId 2))).length
      = ((stage3Pairs mkPk mkId pairs).filter
        (fun x => decide (x.1.id = mkId 2))).length :=
    enum_filter_length_snd
      (fun x : WalletNode × (WalletNode × ℚ) => decide (x.1.id = mkId 2))
      (stage3Pairs mkPk mkId pairs)
  show ((stage3Pairs mkPk mkId pairs).enum.filter
      (fun q => decide (q.2.1.id = mkId 2))).length = (bucket pairs 0).length
  rw [h1, stage3Pairs_filter_d2 mkPk mkId pairs hnd, List.length_map]

/-- C2 (code bug): the balance-closure invariant FAILS at every distributor.
Stage 1 collects, per distributor, a rent-exemption amount at the hub (the
code comments say the hub "needs to send the distributors enough for rent,
future fees, and the final amounts"), but Stage 2 forwards only the final
amounts plus forwarding fees — the rent never reaches the distributor.  So a
distributor's inflow equals its outflow plus its outgoing fees exactly, and
adding its one-time rent-exemption cost strictly exceeds its inflow whenever
rent is positive.  Shown here for the first distributor of a six-recipient
plan. -/
theorem claim_C2 (mkPk mkId : ℕ → String) (randSplit randT : ℕ → ℚ)
    (rentExemptionLamports : ℚ) (srcKey : Bool) (srcPk : String)
    (recipients : List String) (totalSol totalSeconds : ℚ)
    (hg : GoodIds mkId recipients.length)
    (hr : ∀ i, 0 ≤ randSplit i ∧ randSplit i < 1)
    (hlen : recipients.length = 6)
    (hrentpos : 0 < rentExemptionLamports)
    (g : FundingGraph)
    (h : buildFundingGraph mkPk mkId randSplit randT rentExemptionLamports srcKey srcPk
      recipients totalSol totalSeconds = Except.ok g) :
    inflow g (mkId 2)
      < outflow g (mkId 2) + (outDegree g (mkId 2) : ℚ) * txFeeSOL
        + rentExemptionSOL rentExemptionLamports := by
  have hcost := (build_ok_elim h).1
  have hperm := build_ok_edges_perm h
  have hnd : ((List.range 6).map mkId).Nodup := hg.1
  have hampos := plannedPairs_amount_pos randSplit rentExemptionLamports recipients totalSol
    hr hcost
  have hPlen : (plannedPairs randSplit rentExemptionLamports recipients totalSol).length
      = 6 := by
    rw [plannedPairs_length randSplit rentExemptionLamports recipients totalSol hcost, hlen]
  obtain ⟨a, b, c, d, e2, f, hP⟩ := exists_six _ hPlen
  have hpos : ∀ k, 2 ≤ k → k < 6 →
      0 < amountToFundDistributor mkPk mkId
        (plannedPairs randSplit rentExemptionLamports recipients totalSol)
        (interNode mkPk mkId k) := by
    intro k h2 h6
    apply amountToFundDistributor_pos mkPk mkId _ hnd hampos k h2 h6
    interval_cases k
    · rw [show (2 : ℕ) - 2 = 0 from rfl, hP, (bucket_six a b c d e2 f).1]
      simp
    · rw [show (3 : ℕ) - 2 = 1 from rfl, hP, (bucket_six a b c d e2 f).2.1]
      simp
    · rw [show (4 : ℕ) - 2 = 2 from rfl, hP, (bucket_six a b c d e2 f).2.2.1]
      simp
    · rw [show (5 : ℕ) - 2 = 3 from rfl, hP, (bucket_six a b c d e2 f).2.2.2]
      simp
  have hneq : ∀ x y : ℕ, x < 6 → y < 6 → x ≠ y → ¬ (mkId x = mkId y) :=
    fun x y hx hy hxy hh => hxy (mkId_lt6_inj hnd hx hy hh)
  have hs1to : (stage1Edges mkPk mkId randT rentExemptionLamports totalSeconds
      (plannedPairs randSplit rentExemptionLamports recipients totalSol)).filter
        (fun e => decide (e.«to» = mkId 2)) = [] := by
    apply List.filter_eq_nil_iff.mpr
    intro e he
    simp only [decide_eq_true_eq]
    obtain ⟨-, k, hk, hto⟩ := stage1Edges_shape he
    rw [hto]
    exact hneq k 2 (by omega) (by norm_num) (by omega)
  have hs1from : (stage1Edges mkPk mkId randT rentExemptionLamports totalSeconds
      (plannedPairs randSplit rentExemptionLamports recipients totalSol)).filter
        (fun e => decide (e.«from» = mkId 2)) = [] := by
    apply List.filter_eq_nil_iff.mpr
    intro e he
    simp only [decide_eq_true_eq]
    rw [(stage1Edges_shape he).1]
    intro hh
    exact hg.2.1 2 (by norm_num) hh.symm
  have hs3to : (stage3Edges mkPk mkId randT totalSeconds
      (plannedPairs randSplit rentExemptionLamports recipients totalSol)).filter
        (fun e => decide (e.«to» = mkId 2)) = [] := by
    apply List.filter_eq_nil_iff.mpr
    intro e he
    simp only [decide_eq_true_eq]
    obtain ⟨r, hrP, hto, -⟩ := (stage3Edges_shape he).2
    rw [hto]
    obtain ⟨k, hk, hkid⟩ := mem_recipientNodes_elim (plannedPairs_fst_mem hrP)
    rw [hkid]
    intro hh
    exact hg.2.2 2 (by norm_num) k hk hh.symm
  have hs2to : (stage2Edges mkPk mkId randT totalSeconds
      (plannedPairs randSplit rentExemptionLamports recipients totalSol)).filter
        (fun e => decide (e.«to» = mkId 2))
      = [{ «from» := (interNode mkPk mkId 0).id, «to» := (interNode mkPk mkId 2).id
           amount := amountToFundDistributor mkPk mkId
             (plannedPairs randSplit rentExemptionLamports recipients totalSol)
             (interNode mkPk mkId 2)
           sendTime := ⌊totalSeconds * (2 / 10)
             + randT (NUM_LAYER_1_HUBS + 0) * (totalSeconds * (3 / 10))⌋ }] := by
    rw [stage2Edges_eq_of_pos mkPk mkId randT totalSeconds _ hnd hpos]
    rw [List.filter_cons_of_pos (by simp only [decide_eq_true_eq]; rfl),
      List.filter_cons_of_neg (by
        simp only [decide_eq_true_eq]
        exact hneq 4 2 (by norm_num) (by norm_num) (by norm_num)),
      List.filter_cons_of_neg (by
        simp only [decide_eq_true_eq]
        exact hneq 3 2 (by norm_num) (by norm_num) (by norm_num)),
      List.filter_cons_of_neg (by
        simp only [decide_eq_true_eq]
        exact hneq 5 2 (by norm_num) (by norm_num) (by norm_num)),
      List.filter_nil]
  have hs2from : (stage2Edges mkPk mkId randT totalSeconds
      (plannedPairs randSplit rentExemptionLamports recipients totalSol)).filter
        (fun e => decide (e.«from» = mkId 2)) = [] := by
    rw [stage2Edges_eq_of_pos mkPk mkId randT totalSeconds _ hnd hpos]
    rw [List.filter_cons_of_neg (by
        simp only [decide_eq_true_eq]
        exact hneq 0 2 (by norm_num) (by norm_num) (by norm_num)),
      List.filter_cons_of_neg (by
        simp only [decide_eq_true_eq]
        exact hneq 0 2 (by norm_num) (by norm_num) (by norm_num)),
      List.filter_cons_of_neg (by
        simp only [decide_eq_true_eq]
        exact hneq 1 2 (by norm_num) (by norm_num) (by norm_num)),
      List.filter_cons_of_neg (by
        simp only [decide_eq_true_eq]
        exact hneq 1 2 (by norm_num) (by norm_num) (by norm_num)),
      List.filter_nil]
  have hinf : inflow g (mkId 2) = amountToFundDistributor mkPk mkId
      (plannedPairs randSplit rentExemptionLamports recipients totalSol)
      (interNode mkPk mkId 2) := by
    unfold inflow
    rw [List.Perm.sum_eq ((hperm.filter (fun e => decide (e.«to» = mkId 2))).map
      (fun e => e.amount))]
    rw [plannedEdges, List.filter_append, List.filter_append, hs1to, hs2to, hs3to]
    simp
  have hout : outflow g (mkId 2)
      = ((bucket (plannedPairs randSplit rentExemptionLamports recipients totalSol) 0).map
        fun r => r.2).sum := by
    unfold outflow
    rw [List.Perm.sum_eq ((hperm.filter (fun e => decide (e.«from» = mkId 2))).map
      (fun e => e.amount))]
    rw [plannedEdges, List.filter_append, List.filter_append, hs1from, hs2from,
      List.nil_append, List.nil_append,
      stage3Edges_from_d2_map_amount mkPk mkId randT totalSeconds _ hnd]
  have hdeg : outDegree g (mkId 2)
      = (bucket (plannedPairs randSplit rentExemptionLamports recipients totalSol) 0).length := by
    unfold outDegree
    rw [← List.countP_eq_length_filter, List.Perm.countP_eq _ hperm,
      List.countP_eq_length_filter]
    rw [plannedEdges, List.filter_append, List.filter_append, hs1from, hs2from,
      List.nil_append, List.nil_append]
    exact stage3Edges_from_d2_length mkPk mkId randT totalSeconds _ hnd
  have hAFD : amountToFundDistributor mkPk mkId
      (plannedPairs randSplit rentExemptionLamports recipients totalSol)
      (interNode mkPk mkId 2)
      = ((bucket (plannedPairs randSplit rentExemptionLamports recipients totalSol) 0).map
          fun r => r.2).sum
        + (((bucket (plannedPairs randSplit rentExemptionLamports recipients totalSol) 0).length : ℚ))
          * txFeeSOL := by
    unfold amountToFundDistributor
    rw [show (interNode mkPk mkId 2).id = mkId 2 from rfl,
      dra_bucket mkPk mkId _ hnd 2 (by norm_num) (by norm_num)]
  have hrentS : 0 < rentExemptionSOL rentExemptionLamports := by
    unfold rentExemptionSOL LAMPORTS_PER_SOL
    exact div_pos hrentpos (by norm_num)
  rw [hinf, hout, hdeg, hAFD]
  linarith

/-- Witness for C2's violation on the concrete successful six-recipient plan:
the first distributor's inflow is strictly below its outflow + fees + rent. -/
theorem claim_C2_witness :
    inflow gOkW (mkIdW 2)
      < outflow gOkW (mkIdW 2) + (outDegree gOkW (mkIdW 2) : ℚ) * txFeeSOL
        + rentExemptionSOL 890880 :=
  claim_C2 mkPkW mkIdW halfRand halfRand 890880 true "SRC" sixRecipients 1 300
    (by unfold GoodIds; decide) (fun _ => by norm_num [halfRand]) (by decide)
    (by norm_num) gOkW buildW_ok
